import Mathlib

/-!
Verification development for the budget application (src/services.py and
src/app.py): a shallow embedding of its data layer and of the closed-month
confirmation workflow, with theorems checking the specification's claims.

Modelling conventions:
* SQLite rows become Lean structures; tables become lists; one `DB` structure
  holds the whole database file.
* SQL `REAL` amounts are modelled as `ℚ` (the spec promises only two-decimal
  precision; no claim depends on binary floating-point artifacts).
* `uuid4()` ids and `utcnow()` timestamps are opaque strings generated from a
  counter `gen` carried in `DB`; no view or claim reads their contents, only
  `deleted_at`'s NULL/non-NULL status matters.
* The audit columns `created_at`/`updated_at` are never read by any query in
  the source, so the row structures omit them.
* Python `ValueError` becomes `Except.error` with the source's message; an
  operation that raises returns no new database, hence has no effect.
* SQL `ORDER BY` becomes `List.insertionSort` with the corresponding
  lexicographic key; SQLite's BINARY text collation becomes code-point
  comparison `charListLt` on the string's characters.
-/

namespace Budget

/-- Code-point comparison of character lists: the order SQLite's BINARY
collation and Python string comparison induce on ASCII text. -/
def charListLt : List Char → List Char → Bool
  | _, [] => false
  | [], _ :: _ => true
  | a :: as, b :: bs => if a < b then true else if b < a then false else charListLt as bs

/-- Strict string order (code-point lexicographic), used for SQL `<` on months
and `ORDER BY` on text columns. -/
def strLt (s t : String) : Bool := charListLt s.data t.data

/-- Non-strict string order derived from `strLt`. -/
def strLe (s t : String) : Bool := !(strLt t s)

/-- Python `str.strip()` on a character list: drop leading and trailing
whitespace. -/
def stripChars (l : List Char) : List Char :=
  ((l.dropWhile Char.isWhitespace).reverse.dropWhile Char.isWhitespace).reverse

/-- Python `(month or "").strip()` as used throughout services.py. -/
def pyStrip (s : String) : String := ⟨stripChars s.data⟩

/-- services.py `month_from_date`: `iso_date[:7]`, "YYYY-MM-DD" -> "YYYY-MM". -/
def month_from_date (iso_date : String) : String := ⟨iso_date.data.take 7⟩

/-- The month-shape validation used by `upsert_snapshot`, `upsert_budget`,
`planned_vs_actual` and `close_month` in services.py:
`len(month) == 7 and month[4] == "-"`. -/
def monthShapeOK (m : String) : Bool :=
  m.data.length == 7 && m.data[4]? == some '-'

/-- Modelled from the spec: the spec's "YYYY-MM shape" read literally — four
digits, a dash, two digits.  This definition follows the spec's words, not the
source, and exists only to compare the spec's validation demand with the
weaker check `monthShapeOK` that the source actually performs. -/
def specMonthShape (m : String) : Bool :=
  match m.data with
  | [y1, y2, y3, y4, d, m1, m2] =>
      y1.isDigit && y2.isDigit && y3.isDigit && y4.isDigit &&
      (d == '-') && m1.isDigit && m2.isDigit
  | _ => false

/-- Floor of a rational, via Mathlib's `Int.floor`. -/
def qfloor (q : ℚ) : ℤ := ⌊q⌋

/-- SQLite `ROUND(x, 2)`: halves round away from zero. -/
def sqlRound2 (q : ℚ) : ℚ :=
  ((if 0 ≤ q then qfloor (q * 100 + 1/2) else -(qfloor (-(q * 100) + 1/2)) : ℤ) : ℚ) / 100

/-- Python's banker rounding of a rational to the nearest integer:
halves go to the even neighbour. -/
def roundHalfEven (q : ℚ) : ℤ :=
  let f : ℤ := qfloor q
  if q - f < 1/2 then f
  else if (1 : ℚ)/2 < q - f then f + 1
  else if f % 2 == 0 then f else f + 1

/-- Python `round(x, 1)` as used by the Debt Progress percentage columns. -/
def pyRound1 (q : ℚ) : ℚ := ((roundHalfEven (q * 10) : ℤ) : ℚ) / 10

/-- Python `round(x, 2)` as used by the Debt Progress balance delta. -/
def pyRound2 (q : ℚ) : ℚ := ((roundHalfEven (q * 100) : ℤ) : ℚ) / 100

/-- owners table row (id, system_key, display_name, sort_order). -/
structure Owner where
  id : String
  system_key : String
  display_name : String
  sort_order : Int
  deriving DecidableEq, Repr

/-- categories table row. -/
structure Category where
  id : String
  name : String
  active : Bool
  deriving DecidableEq, Repr

/-- bills table row. -/
structure Bill where
  id : String
  owner_id : String
  name : String
  due_day : Option Int
  default_amount : Option ℚ
  active : Bool
  deriving DecidableEq, Repr

/-- bill_payments table row. -/
structure BillPayment where
  id : String
  bill_id : String
  month : String
  paid : Bool
  paid_amount : Option ℚ
  paid_date : Option String
  note : Option String
  deriving DecidableEq, Repr

/-- accounts table row (`type` is CREDIT_CARD or LOAN). -/
structure Account where
  id : String
  owner_id : String
  name : String
  acc_type : String
  apr : Option ℚ
  credit_limit : Option ℚ
  start_balance : Option ℚ
  active : Bool
  deriving DecidableEq, Repr

/-- account_snapshots table row. -/
structure AccountSnapshot where
  id : String
  account_id : String
  month : String
  balance : ℚ
  payment : ℚ
  deriving DecidableEq, Repr

/-- transactions table row; `deleted_at = none` means the row is live. -/
structure Txn where
  id : String
  txn_date : String
  owner_id : String
  category_id : String
  description : String
  amount : ℚ
  deleted_at : Option String
  deriving DecidableEq, Repr

/-- budgets table row. -/
structure BudgetRow where
  id : String
  month : String
  owner_id : String
  category_id : String
  planned_amount : ℚ
  deriving DecidableEq, Repr

/-- month_closings table row. -/
structure MonthClosing where
  id : String
  month : String
  closed_at : String
  note : Option String
  deriving DecidableEq, Repr

/-- The database file: one list per table, plus the generator counter `gen`
from which fresh opaque ids and timestamps are drawn. -/
structure DB where
  owners : List Owner
  categories : List Category
  bills : List Bill
  bill_payments : List BillPayment
  accounts : List Account
  account_snapshots : List AccountSnapshot
  transactions : List Txn
  budgets : List BudgetRow
  month_closings : List MonthClosing
  gen : Nat
  deriving DecidableEq, Repr

/-- A fresh opaque string (uuid4 / utcnow stand-in) drawn from the counter. -/
def freshStr (n : Nat) : String := "g" ++ toString n

/-- The empty database. -/
def emptyDB : DB :=
  { owners := [], categories := [], bills := [], bill_payments := [],
    accounts := [], account_snapshots := [], transactions := [], budgets := [],
    month_closings := [], gen := 0 }

/-- services.py `is_month_closed`: strip the month, then test whether any
month_closings row has that exact month string. -/
def is_month_closed (db : DB) (month : String) : Bool :=
  let ms := pyStrip month
  db.month_closings.any (fun mc => mc.month == ms)

/-- services.py `ensure_bill_payment_rows`: for every active bill,
`INSERT OR IGNORE` a fresh unpaid bill_payments row for the month.
Modelled from the spec: schema.sql is not under src/; per the spec's data
model ("One row per (bill, month) pair") bill_payments carries a unique
constraint on (bill_id, month), so `INSERT OR IGNORE` inserts exactly when no
row with the same (bill_id, month) already exists and never touches an
existing row. -/
def newPayment (gen : Nat) (bid ms : String) : BillPayment :=
  { id := freshStr gen, bill_id := bid, month := ms, paid := false,
    paid_amount := none, paid_date := none, note := none }

def ensureStep (ms : String) (d : DB) (b : Bill) : DB :=
  if d.bill_payments.any (fun bp => bp.bill_id == b.id && bp.month == ms) then d
  else
    { d with
      bill_payments := d.bill_payments ++ [newPayment d.gen b.id ms],
      gen := d.gen + 1 }

def ensure_bill_payment_rows (db : DB) (month : String) : DB :=
  (db.bills.filter (·.active)).foldl (ensureStep (pyStrip month)) db

/-- One row of the bills-due view (services.py `bills_due_view` SELECT list). -/
structure BillsDueRow where
  owner : String
  bill : String
  due_day : Option Int
  planned : Option ℚ
  paid : Bool
  paid_amount : Option ℚ
  paid_date : Option String
  note : Option String
  bill_id : String
  deriving DecidableEq, Repr

/-- Ordering key of `bills_due_view`: `ORDER BY b.due_day, o.display_name,
b.name`; SQLite sorts NULL due_day first. -/
def billsDueLe (r1 r2 : BillsDueRow) : Bool :=
  match r1.due_day, r2.due_day with
  | none, none =>
      strLt r1.owner r2.owner ||
        (r1.owner == r2.owner && strLe r1.bill r2.bill)
  | none, some _ => true
  | some _, none => false
  | some d1, some d2 =>
      decide (d1 < d2) ||
        (d1 == d2 &&
          (strLt r1.owner r2.owner ||
            (r1.owner == r2.owner && strLe r1.bill r2.bill)))

/-- services.py `bills_due_view`: first `ensure_bill_payment_rows`, then join
active bills with owners and the month's payment rows.  Returns the updated
database together with the view rows. -/
def bills_due_view (db : DB) (month : String) : DB × List BillsDueRow :=
  let ms := pyStrip month
  let db1 := ensure_bill_payment_rows db month
  (db1,
    List.insertionSort (fun a b => billsDueLe a b = true)
      ((db1.bills.filter (·.active)).flatMap (fun b =>
        (db1.owners.filter (fun o => o.id == b.owner_id)).flatMap (fun o =>
          (db1.bill_payments.filter (fun bp => bp.bill_id == b.id && bp.month == ms)).map
            (fun bp =>
              { owner := o.display_name, bill := b.name, due_day := b.due_day,
                planned := b.default_amount, paid := bp.paid,
                paid_amount := bp.paid_amount, paid_date := bp.paid_date,
                note := bp.note, bill_id := b.id })))))

/-- services.py `update_bill_amount_and_recurring`.  Its first statement is
`conn = get_db()`, and no `get_db` is defined or imported anywhere in the
repository (services.py defines `conn`, not `get_db`), so Python raises
`NameError` at call time before touching the database; the UPDATE statement —
which also names columns `planned` and `recurring` that no other code gives
the bills table — is never reached. -/
def update_bill_amount_and_recurring (db : DB) (bill_id : String)
    (planned_amount : ℚ) (recurring : Bool) : Except String DB :=
  .error "NameError: name get_db is not defined"

/-- The key predicate of the snapshot upsert: `ON CONFLICT(account_id, month)`. -/
def snapKey (aid ms : String) (s : AccountSnapshot) : Bool :=
  s.account_id == aid && s.month == ms

/-- Successful body of `upsert_snapshot` (shape check already passed): insert,
or on an (account_id, month) conflict update balance and payment in place. -/
def upsert_snapshotB (db : DB) (aid ms : String) (balance payment : ℚ) : DB :=
  if db.account_snapshots.any (snapKey aid ms) then
    { db with
      account_snapshots := db.account_snapshots.map (fun s =>
        if snapKey aid ms s then { s with balance := balance, payment := payment } else s) }
  else
    { db with
      account_snapshots := db.account_snapshots ++
        [{ id := freshStr db.gen, account_id := aid, month := ms,
           balance := balance, payment := payment }],
      gen := db.gen + 1 }

/-- services.py `upsert_snapshot`: strip the month, validate its shape, then
upsert on the (account_id, month) key. -/
def upsert_snapshot (db : DB) (account_id month : String) (balance payment : ℚ) :
    Except String DB :=
  let ms := pyStrip month
  if monthShapeOK ms then .ok (upsert_snapshotB db account_id ms balance payment)
  else .error "Month must be YYYY-MM."

/-- One row of services.py `latest_snapshot_by_account`. -/
structure DebtRow where
  owner : String
  account : String
  acc_type : String
  apr : Option ℚ
  credit_limit : Option ℚ
  start_balance : Option ℚ
  account_id : String
  curr_balance : Option ℚ
  curr_payment : Option ℚ
  prev_balance : Option ℚ
  prev_payment : Option ℚ
  deriving DecidableEq, Repr

/-- Ordering of `latest_snapshot_by_account`:
`ORDER BY o.display_name, a.type, a.name`. -/
def debtLe (r1 r2 : DebtRow) : Bool :=
  strLt r1.owner r2.owner ||
    (r1.owner == r2.owner &&
      (strLt r1.acc_type r2.acc_type ||
        (r1.acc_type == r2.acc_type && strLe r1.account r2.account)))

/-- The correlated subquery of `latest_snapshot_by_account`:
`SELECT month FROM account_snapshots WHERE account_id=a.id AND month < ?
ORDER BY month DESC LIMIT 1` — the greatest snapshot month strictly below the
requested one. -/
def prevMonthOf (db : DB) (aid ms : String) : Option String :=
  (List.insertionSort (fun a b => strLe b a = true)
      ((db.account_snapshots.filter
          (fun s => s.account_id == aid && strLt s.month ms)).map (·.month))).head?

/-- One row of the debt view before sorting: account `a` joined with owner
`o`, with the "current" (exact month) and "previous" (max-below month)
snapshot left-joins. -/
def mkDebtRow (db : DB) (ms : String) (a : Account) (o : Owner) : DebtRow :=
  let curr := db.account_snapshots.find? (fun s => s.account_id == a.id && s.month == ms)
  let prev := (prevMonthOf db a.id ms).bind (fun pm =>
    db.account_snapshots.find? (fun s => s.account_id == a.id && s.month == pm))
  { owner := o.display_name, account := a.name, acc_type := a.acc_type,
    apr := a.apr, credit_limit := a.credit_limit,
    start_balance := a.start_balance, account_id := a.id,
    curr_balance := curr.map (·.balance), curr_payment := curr.map (·.payment),
    prev_balance := prev.map (·.balance), prev_payment := prev.map (·.payment) }

/-- services.py `latest_snapshot_by_account`: every active account joined with
its owner, left-joined with the requested month's snapshot ("current") and
with the snapshot at the greatest month strictly below it ("previous"). -/
def latest_snapshot_by_account (db : DB) (month : String) : List DebtRow :=
  let ms := pyStrip month
  List.insertionSort (fun a b => debtLe a b = true)
    ((db.accounts.filter (·.active)).flatMap (fun a =>
      (db.owners.filter (fun o => o.id == a.owner_id)).map (mkDebtRow db ms a)))

/-- app.py Debt Progress tab: the view row extended with the three derived
columns computed by `pct_used`, `payoff_pct` and `delta_balance`. -/
structure DebtProgressRow extends DebtRow where
  utilization : Option ℚ
  payoff : Option ℚ
  balance_delta : Option ℚ
  deriving DecidableEq, Repr

/-- app.py `pct_used`: `round(100.0 * cb / lim, 1)` only when a credit limit
is present and positive and a current balance is present. -/
def pct_used (credit_limit curr_balance : Option ℚ) : Option ℚ :=
  match credit_limit, curr_balance with
  | some lim, some cb => if 0 < lim then some (pyRound1 (100 * cb / lim)) else none
  | some _, none => none
  | none, _ => none

/-- app.py `payoff_pct`: `round(100.0 * (sb - cb) / sb, 1)` only when a
positive start balance and a current balance are present. -/
def payoff_pct (start_balance curr_balance : Option ℚ) : Option ℚ :=
  match start_balance, curr_balance with
  | some sb, some cb => if 0 < sb then some (pyRound1 (100 * (sb - cb) / sb)) else none
  | some _, none => none
  | none, _ => none

/-- app.py `delta_balance`: `round(cb - pb, 2)` only when both balances are
present. -/
def delta_balance (curr_balance prev_balance : Option ℚ) : Option ℚ :=
  match curr_balance, prev_balance with
  | some cb, some pb => some (pyRound2 (cb - pb))
  | some _, none => none
  | none, _ => none

/-- app.py Debt Progress tab, one row: the derived utilization / payoff /
balance-delta columns appended to a view row. -/
def deriveDebtRow (r : DebtRow) : DebtProgressRow :=
  { toDebtRow := r,
    utilization := pct_used r.credit_limit r.curr_balance,
    payoff := payoff_pct r.start_balance r.curr_balance,
    balance_delta := delta_balance r.curr_balance r.prev_balance }

/-- app.py Debt Progress tab: `latest_snapshot_by_account` with the derived
utilization / payoff / balance-delta columns appended row by row. -/
def debt_progress_rows (db : DB) (month : String) : List DebtProgressRow :=
  (latest_snapshot_by_account db month).map deriveDebtRow

/-- services.py `add_transaction`: reject a non-positive amount with
`ValueError("Amount must be > 0.")`, otherwise insert a live row. -/
def add_transaction (db : DB) (txn_date owner_id category_id : String)
    (amount : ℚ) (desc : String) : Except String DB :=
  if amount ≤ 0 then .error "Amount must be > 0."
  else
    .ok { db with
          transactions := db.transactions ++
            [{ id := freshStr db.gen, txn_date := txn_date, owner_id := owner_id,
               category_id := category_id, description := pyStrip desc,
               amount := amount, deleted_at := none }],
          gen := db.gen + 1 }

/-- One prepared row of a CSV bulk import (services.py `bulk_add_transactions`
docstring: txn_date, owner_id, category_id, amount, optional description). -/
structure BulkRow where
  txn_date : String
  owner_id : String
  category_id : String
  amount : ℚ
  description : Option String
  deriving DecidableEq, Repr

/-- One INSERT of the bulk-import loop. -/
def bulkStep (d : DB) (r : BulkRow) : DB :=
  { d with
    transactions := d.transactions ++
      [{ id := freshStr d.gen, txn_date := r.txn_date, owner_id := r.owner_id,
         category_id := r.category_id,
         description := pyStrip (r.description.getD ""),
         amount := r.amount, deleted_at := none }],
    gen := d.gen + 1 }

/-- services.py `bulk_add_transactions`: insert every row as-is; the function
itself performs no validation of the amount. -/
def bulk_add_transactions (db : DB) (rows : List BulkRow) : DB :=
  rows.foldl bulkStep db

/-- The live (not soft-deleted) transactions, the base of every transaction
query in services.py (`WHERE t.deleted_at IS NULL`). -/
def liveTxns (db : DB) : List Txn :=
  db.transactions.filter (fun t => t.deleted_at.isNone)

/-- One row of services.py `get_transactions`. -/
structure TxnViewRow where
  id : String
  txn_date : String
  owner : String
  category : String
  description : String
  amount : ℚ
  deriving DecidableEq, Repr

/-- Python truthiness of the optional month filter: `if month:` is false for
`None` and for the empty string. -/
def monthFilterActive (month : Option String) : Bool :=
  match month with
  | none => false
  | some m => !(m == "")

/-- services.py `get_transactions`: live transactions joined with owners and
categories, optionally filtered to one month, newest date first. -/
def get_transactions (db : DB) (month : Option String) : List TxnViewRow :=
  List.insertionSort (fun a b => strLe b.txn_date a.txn_date = true)
    (((liveTxns db).filter (fun t =>
        !(monthFilterActive month) || some (month_from_date t.txn_date) == month)).flatMap
      (fun t =>
        (db.owners.filter (fun o => o.id == t.owner_id)).flatMap (fun o =>
          (db.categories.filter (fun c => c.id == t.category_id)).map (fun c =>
            { id := t.id, txn_date := t.txn_date, owner := o.display_name,
              category := c.name, description := t.description, amount := t.amount }))))

/-- services.py `soft_delete_transaction`: set `deleted_at` on the row with the
given id; the row itself stays in the table. -/
def soft_delete_transaction (db : DB) (txn_id : String) : DB :=
  { db with
    transactions := db.transactions.map (fun t =>
      if t.id == txn_id then { t with deleted_at := some (freshStr db.gen) } else t),
    gen := db.gen + 1 }

/-- Comparison database used to express "excluded from every report": the
same database with the given transaction row hard-removed instead of
soft-deleted.  Soft deletion must make every report equal to this. -/
def dbWithout (db : DB) (txn_id : String) : DB :=
  { db with transactions := db.transactions.filter (fun t => !(t.id == txn_id)) }

/-- One row of services.py `export_transactions_rows` (CSV export shape). -/
structure ExportRow where
  txn_date : String
  owner : String
  category : String
  amount : ℚ
  description : String
  deriving DecidableEq, Repr

/-- services.py `export_transactions_rows`: live transactions joined with
owners and categories, optionally filtered to one month, oldest date first. -/
def export_transactions_rows (db : DB) (month : Option String) : List ExportRow :=
  List.insertionSort (fun a b => strLe a.txn_date b.txn_date = true)
    (((liveTxns db).filter (fun t =>
        !(monthFilterActive month) || some (month_from_date t.txn_date) == month)).flatMap
      (fun t =>
        (db.owners.filter (fun o => o.id == t.owner_id)).flatMap (fun o =>
          (db.categories.filter (fun c => c.id == t.category_id)).map (fun c =>
            { txn_date := t.txn_date, owner := o.display_name, category := c.name,
              amount := t.amount, description := t.description }))))

/-- The key predicate of the budget upsert:
`ON CONFLICT(month, owner_id, category_id)`. -/
def budgetKey (ms oid cid : String) (b : BudgetRow) : Bool :=
  b.month == ms && b.owner_id == oid && b.category_id == cid

/-- Successful body of `upsert_budget` (shape check already passed): insert, or
on a (month, owner_id, category_id) conflict update the planned amount. -/
def upsert_budgetB (db : DB) (ms oid cid : String) (planned_amount : ℚ) : DB :=
  if db.budgets.any (budgetKey ms oid cid) then
    { db with
      budgets := db.budgets.map (fun b =>
        if budgetKey ms oid cid b then { b with planned_amount := planned_amount } else b) }
  else
    { db with
      budgets := db.budgets ++
        [{ id := freshStr db.gen, month := ms, owner_id := oid,
           category_id := cid, planned_amount := planned_amount }],
      gen := db.gen + 1 }

/-- services.py `upsert_budget`: strip the month, validate its shape, then
upsert on the (month, owner_id, category_id) key. -/
def upsert_budget (db : DB) (month owner_id category_id : String)
    (planned_amount : ℚ) : Except String DB :=
  let ms := pyStrip month
  if monthShapeOK ms then .ok (upsert_budgetB db ms owner_id category_id planned_amount)
  else .error "Month must be YYYY-MM."

/-- One row of services.py `planned_vs_actual`.  `owner_sort` mirrors
`o.sort_order`, the first `ORDER BY` key (a column the SQL sorts by without
selecting it). -/
structure PvaRow where
  owner : String
  owner_sort : Int
  category : String
  planned : ℚ
  actual : ℚ
  variance : ℚ
  deriving DecidableEq, Repr

/-- Ordering of `planned_vs_actual`: `ORDER BY o.sort_order, c.name`. -/
def pvaLe (r1 r2 : PvaRow) : Bool :=
  decide (r1.owner_sort < r2.owner_sort) ||
    (r1.owner_sort == r2.owner_sort && strLe r1.category r2.category)

/-- The budget's planned amount for one (month, owner, category) cell:
`COALESCE(b.planned_amount, 0)` over the LEFT JOIN on the upsert key. -/
def plannedOf (db : DB) (ms oid cid : String) : ℚ :=
  ((db.budgets.find? (budgetKey ms oid cid)).map (·.planned_amount)).getD 0

/-- The `act` CTE evaluated at one (owner, category) cell: the sum of live
transaction amounts for that owner, category and month (0 when there are
none). -/
def actualSum (db : DB) (ms oid cid : String) : ℚ :=
  (((liveTxns db).filter (fun t =>
      month_from_date t.txn_date == ms && t.owner_id == oid && t.category_id == cid)).map
    (·.amount)).sum

/-- One cell of the planned-vs-actual cross product. -/
def pvaRow (db : DB) (ms : String) (o : Owner) (c : Category) : PvaRow :=
  { owner := o.display_name, owner_sort := o.sort_order, category := c.name,
    planned := plannedOf db ms o.id c.id,
    actual := sqlRound2 (actualSum db ms o.id c.id),
    variance := sqlRound2 (plannedOf db ms o.id c.id - actualSum db ms o.id c.id) }

/-- Successful body of `planned_vs_actual`: the full owners × active-categories
cross product, each cell left-joined with its budget row and aggregated
actuals, ordered by owner sort_order then category name. -/
def pvaRows (db : DB) (ms : String) : List PvaRow :=
  List.insertionSort (fun a b => pvaLe a b = true)
    (db.owners.flatMap (fun o =>
      (db.categories.filter (·.active)).map (fun c => pvaRow db ms o c)))

/-- services.py `planned_vs_actual`: strip the month, validate its shape, then
produce the cross-product comparison rows. -/
def planned_vs_actual (db : DB) (month : String) : Except String (List PvaRow) :=
  let ms := pyStrip month
  if monthShapeOK ms then .ok (pvaRows db ms)
  else .error "Month must be YYYY-MM."

/-- Body of a successful `close_month` call (shape check already passed): a
silent no-op when the month is already closed, otherwise materialize the
month's bill_payments rows and insert the MonthClosing row. -/
def close_monthB (db : DB) (ms : String) (note : Option String) : DB :=
  if is_month_closed db ms then db
  else
    let db1 := ensure_bill_payment_rows db ms
    { db1 with
      month_closings := db1.month_closings ++
        [{ id := freshStr db1.gen, month := ms, closed_at := freshStr db1.gen,
           note := note.map pyStrip }],
      gen := db1.gen + 1 }

/-- services.py `close_month`: strip the month, validate its shape, then close
the month idempotently. -/
def close_month (db : DB) (month : String) (note : Option String) : Except String DB :=
  let ms := pyStrip month
  if monthShapeOK ms then .ok (close_monthB db ms note)
  else .error "Month must be YYYY-MM."

/-- A button event reaching one rendering of a gated save form in app.py:
the form's primary save button, or the Confirm / Cancel buttons of the
pending-confirmation bar. -/
inductive UIEvent where
  | saveClicked
  | confirmClicked
  | cancelClicked
  deriving DecidableEq, Repr

/-- app.py `arm_two_step_if_closed`: set the pending flag for this action and
month if (and only if) the month is closed. -/
def arm_two_step_if_closed (db : DB) (month : String) (pending : Bool) : Bool :=
  if is_month_closed db month then true else pending

/-- app.py `confirm_bar_if_pending` evaluated in the script run handling one
event.  Result: (confirm clicked and authorized, pending flag afterwards,
script halted by `st.rerun()`).  If the month is open the pending flag is
popped; if nothing is pending the bar is not rendered; otherwise Confirm
clears the flag and authorizes, and Cancel clears the flag and reruns. -/
def confirm_bar_if_pending (db : DB) (month : String) (pending : Bool)
    (ev : UIEvent) : Bool × Bool × Bool :=
  if !(is_month_closed db (pyStrip month)) then (false, false, false)
  else if !pending then (false, pending, false)
  else if ev == .confirmClicked then (true, false, false)
  else if ev == .cancelClicked then (false, false, true)
  else (false, pending, false)

/-- The handler's try/except around a service write: a success replaces the
database, a raised `ValueError` is shown with `st.error` and leaves the
database unchanged. -/
def runWrite (write : DB → Except String DB) (db : DB) : DB :=
  match write db with
  | .ok db1 => db1
  | .error _ => db

/-- One rendering of an app.py gated save form (the shape shared by the Add
Expense, budget, bill-payment, snapshot and CSV-import handlers): first
`confirm_bar_if_pending`, whose Confirm performs the write, then the save
button, which on a closed month only arms the two-step flag and reruns
(`st.rerun()` interrupts the script before the write) and on an open month
writes immediately.  Returns the database and the pending flag after the
run. -/
def gatedSaveRun (db : DB) (pending : Bool) (ev : UIEvent) (month : String)
    (write : DB → Except String DB) : DB × Bool :=
  let r := confirm_bar_if_pending db month pending ev
  if r.2.2 then (db, r.2.1)
  else if r.1 then (runWrite write db, r.2.1)
  else if ev == .saveClicked then
    if is_month_closed db month then (db, arm_two_step_if_closed db month r.2.1)
    else (runWrite write db, r.2.1)
  else (db, r.2.1)

/-- A closed-month database: "2026-01" has a MonthClosing row. -/
def Wc : DB :=
  { emptyDB with
    month_closings := [{ id := "mc1", month := "2026-01", closed_at := "t0", note := none }] }

/-- A concrete gated write: inserting one expense, for the C1 witness. -/
def wWrite : DB → Except String DB :=
  fun d => add_transaction d "2026-01-15" "o1" "c1" 5 ""

/-- A bulk-import row with a negative amount, used to exhibit that
`bulk_add_transactions` does not validate amounts. -/
def cexBulkRow : BulkRow :=
  { txn_date := "2026-01-05", owner_id := "o1", category_id := "c1",
    amount := -5, description := none }

/-- A bulk-import row with a positive amount. -/
def posBulkRow : BulkRow :=
  { txn_date := "2026-01-06", owner_id := "o1", category_id := "c1",
    amount := 7, description := some "ok" }

/-- A concrete active bill, for witnesses. -/
def bill1 : Bill :=
  { id := "b1", owner_id := "o1", name := "Rent", due_day := some 1,
    default_amount := some 1200, active := true }

/-- A one-bill database with no payment rows and no closings, for witnesses. -/
def W2 : DB := { emptyDB with bills := [bill1] }

/-- A concrete owner, for witnesses. -/
def owner1 : Owner :=
  { id := "o1", system_key := "shared", display_name := "Shared", sort_order := 0 }

/-- A concrete active category, for witnesses. -/
def cat1 : Category := { id := "c1", name := "Groceries", active := true }

/-- A concrete live transaction, for witnesses. -/
def txn1 : Txn :=
  { id := "t1", txn_date := "2026-01-03", owner_id := "o1", category_id := "c1",
    description := "", amount := 5, deleted_at := none }

/-- A second concrete live transaction, for witnesses. -/
def txn2 : Txn :=
  { id := "t2", txn_date := "2026-01-04", owner_id := "o1", category_id := "c1",
    description := "", amount := 7, deleted_at := none }

/-- A two-transaction database, for witnesses. -/
def W9 : DB :=
  { emptyDB with
    owners := [owner1], categories := [cat1], transactions := [txn1, txn2] }

/-- A second active category with no budget and no transactions. -/
def cat2 : Category := { id := "c2", name := "Dining", active := true }

/-- A database with one owner, two active categories and two transactions in
the first category only, for the planned-vs-actual witness. -/
def W3 : DB :=
  { emptyDB with
    owners := [owner1], categories := [cat1, cat2],
    transactions := [txn1, txn2] }

/-- The spec's worked example account: start balance 1000, credit limit 500. -/
def acct1 : Account :=
  { id := "a1", owner_id := "o1", name := "Visa", acc_type := "CREDIT_CARD",
    apr := some 20, credit_limit := some 500, start_balance := some 1000,
    active := true }

/-- Snapshot of the example account for 2026-01: balance 400. -/
def snapJan : AccountSnapshot :=
  { id := "s1", account_id := "a1", month := "2026-01", balance := 400, payment := 50 }

/-- Snapshot of the example account for 2025-12: balance 600. -/
def snapDec : AccountSnapshot :=
  { id := "s2", account_id := "a1", month := "2025-12", balance := 600, payment := 50 }

/-- The spec's worked debt-progress example database. -/
def W5 : DB :=
  { emptyDB with
    owners := [owner1], accounts := [acct1],
    account_snapshots := [snapJan, snapDec] }

/-- The debt-progress row of the example account for "2026-01". -/
def rW5 : DebtProgressRow :=
  deriveDebtRow (mkDebtRow W5 (pyStrip "2026-01") acct1 owner1)

theorem charListLt_cons_iff {x y : Char} {xs ys : List Char} :
    charListLt (x :: xs) (y :: ys) = true ↔
      x < y ∨ (x = y ∧ charListLt xs ys = true) := by
  simp only [charListLt]
  rcases lt_trichotomy x y with h | h | h
  · simp [h]
  · subst h
    simp [lt_irrefl]
  · simp [h, lt_asymm h, h.ne', if_neg (lt_asymm h)]

theorem charListLt_irrefl : ∀ l : List Char, charListLt l l = false
  | [] => rfl
  | a :: as => by
      have ih := charListLt_irrefl as
      simp only [charListLt, if_neg (lt_irrefl a)]
      exact ih

theorem charListLt_trans : ∀ {a b c : List Char},
    charListLt a b = true → charListLt b c = true → charListLt a c = true
  | _, [], _, hab, _ => by simp [charListLt] at hab
  | _, _ :: _, [], _, hbc => by simp [charListLt] at hbc
  | [], _ :: _, _ :: _, _, _ => rfl
  | x :: xs, y :: ys, z :: zs, hab, hbc => by
      rw [charListLt_cons_iff] at hab hbc ⊢
      rcases hab with hxy | ⟨hxy, hab'⟩
      · rcases hbc with hyz | ⟨hyz, _⟩
        · exact Or.inl (lt_trans hxy hyz)
        · exact Or.inl (hyz ▸ hxy)
      · rcases hbc with hyz | ⟨hyz, hbc'⟩
        · exact Or.inl (hxy ▸ hyz)
        · exact Or.inr ⟨hxy.trans hyz, charListLt_trans hab' hbc'⟩

theorem charListLt_asymm {a b : List Char} (h : charListLt a b = true) :
    charListLt b a = false := by
  by_contra hba
  have hba' : charListLt b a = true := by
    revert hba
    cases charListLt b a <;> simp
  have := charListLt_trans h hba'
  rw [charListLt_irrefl] at this
  exact Bool.noConfusion this

theorem charListLt_conn : ∀ {a b : List Char},
    charListLt a b = false → charListLt b a = false → a = b
  | [], [], _, _ => rfl
  | [], _ :: _, hab, _ => by simp [charListLt] at hab
  | _ :: _, [], _, hba => by simp [charListLt] at hba
  | x :: xs, y :: ys, hab, hba => by
      have hab' : ¬(x < y ∨ (x = y ∧ charListLt xs ys = true)) := by
        rw [← charListLt_cons_iff, hab]; simp
      have hba' : ¬(y < x ∨ (y = x ∧ charListLt ys xs = true)) := by
        rw [← charListLt_cons_iff, hba]; simp
      push_neg at hab' hba'
      have hxy : x = y := le_antisymm hba'.1 hab'.1
      subst hxy
      have h1 : charListLt xs ys = false := by
        have := hab'.2 rfl
        revert this; cases charListLt xs ys <;> simp
      have h2 : charListLt ys xs = false := by
        have := hba'.2 rfl
        revert this; cases charListLt ys xs <;> simp
      rw [charListLt_conn h1 h2]

theorem strLe_total (s t : String) : strLe s t = true ∨ strLe t s = true := by
  by_cases h : charListLt t.data s.data = true
  · right
    have := charListLt_asymm h
    simp [strLe, strLt, this]
  · left
    simp only [strLe, strLt, Bool.not_eq_true']
    revert h; cases charListLt t.data s.data <;> simp

theorem strLe_trans {a b c : String} (h1 : strLe a b = true) (h2 : strLe b c = true) :
    strLe a c = true := by
  simp only [strLe, strLt, Bool.not_eq_true'] at h1 h2 ⊢
  cases hac : charListLt c.data a.data with
  | false => rfl
  | true =>
    exfalso
    cases hab : charListLt a.data b.data with
    | true => exact absurd (charListLt_trans hac hab) (by simp [h2])
    | false =>
      have hd : a.data = b.data := charListLt_conn hab h1
      rw [hd] at hac
      exact absurd hac (by simp [h2])

theorem strLe_refl (s : String) : strLe s s = true := by
  simp [strLe, strLt, charListLt_irrefl]

theorem dropWhile_eq_self_of_head {α : Type} (p : α → Bool) (l : List α)
    (h : ∀ a, l.head? = some a → p a = false) : l.dropWhile p = l := by
  cases l with
  | nil => rfl
  | cons x xs =>
      rw [List.dropWhile_cons]
      simp [h x rfl]

theorem head?_stripChars_not_ws {l : List Char} {a : Char}
    (h : (stripChars l).head? = some a) : a.isWhitespace = false := by
  unfold stripChars at h
  rw [List.head?_reverse] at h
  have hsuf := List.dropWhile_suffix
    (l := (l.dropWhile Char.isWhitespace).reverse) Char.isWhitespace
  obtain ⟨pre, hpre⟩ := hsuf
  have hB : ((l.dropWhile Char.isWhitespace).reverse.dropWhile Char.isWhitespace).getLast? =
      some a := h
  have hA : (l.dropWhile Char.isWhitespace).reverse.getLast? = some a := by
    rw [← hpre, List.getLast?_append, hB]
    rfl
  rw [List.getLast?_reverse] at hA
  have := List.head?_dropWhile_not Char.isWhitespace l
  rw [hA] at this
  exact this

theorem getLast?_stripChars_not_ws {l : List Char} {a : Char}
    (h : (stripChars l).getLast? = some a) : a.isWhitespace = false := by
  unfold stripChars at h
  rw [List.getLast?_reverse] at h
  have := List.head?_dropWhile_not Char.isWhitespace (l.dropWhile Char.isWhitespace).reverse
  rw [h] at this
  exact this

theorem stripChars_idem (l : List Char) : stripChars (stripChars l) = stripChars l := by
  show (((stripChars l).dropWhile Char.isWhitespace).reverse.dropWhile
      Char.isWhitespace).reverse = stripChars l
  rw [dropWhile_eq_self_of_head Char.isWhitespace (stripChars l)
    (fun a ha => head?_stripChars_not_ws ha)]
  rw [dropWhile_eq_self_of_head Char.isWhitespace (stripChars l).reverse
    (fun a ha => getLast?_stripChars_not_ws (by rwa [List.head?_reverse] at ha))]
  exact List.reverse_reverse _

theorem pyStrip_idem (s : String) : pyStrip (pyStrip s) = pyStrip s :=
  congrArg String.mk (stripChars_idem s.data)

theorem stripChars_of_not_ws {l : List Char} (h : ∀ c ∈ l, c.isWhitespace = false) :
    stripChars l = l := by
  unfold stripChars
  rw [dropWhile_eq_self_of_head Char.isWhitespace l
      (fun a ha => h a (List.mem_of_mem_head? ha)),
    dropWhile_eq_self_of_head Char.isWhitespace l.reverse
      (fun a ha => h a (by
        rw [List.head?_reverse] at ha
        exact List.mem_of_mem_getLast? ha)),
    List.reverse_reverse]

theorem not_ws_of_isDigit {c : Char} (h : c.isDigit = true) : c.isWhitespace = false := by
  cases hw : c.isWhitespace with
  | false => rfl
  | true =>
      exfalso
      have hc : c = ' ' ∨ c = '\t' ∨ c = '\r' ∨ c = '\n' := by
        have := hw
        simp only [Char.isWhitespace, decide_eq_true_eq, Bool.or_eq_true, beq_iff_eq] at this
        tauto
      rcases hc with h1 | h1 | h1 | h1 <;> (subst h1; exact absurd h (by decide))

theorem specShape_data {m : String} (h : specMonthShape m = true) :
    ∃ y1 y2 y3 y4 d m1 m2 : Char,
      m.data = [y1, y2, y3, y4, d, m1, m2] ∧
      y1.isDigit = true ∧ y2.isDigit = true ∧ y3.isDigit = true ∧ y4.isDigit = true ∧
      d = '-' ∧ m1.isDigit = true ∧ m2.isDigit = true := by
  unfold specMonthShape at h
  split at h
  case _ y1 y2 y3 y4 d m1 m2 heq =>
    simp only [Bool.and_eq_true, beq_iff_eq] at h
    exact ⟨y1, y2, y3, y4, d, m1, m2, heq,
      h.1.1.1.1.1.1, h.1.1.1.1.1.2, h.1.1.1.1.2, h.1.1.1.2, h.1.1.2, h.1.2, h.2⟩
  case _ => exact absurd h (by simp)

theorem pyStrip_of_specShape {m : String} (h : specMonthShape m = true) :
    pyStrip m = m := by
  obtain ⟨y1, y2, y3, y4, d, m1, m2, hdata, h1, h2, h3, h4, hd, h5, h6⟩ := specShape_data h
  subst hd
  have hall : ∀ c ∈ m.data, c.isWhitespace = false := by
    rw [hdata]
    intro c hc
    simp only [List.mem_cons, List.not_mem_nil, or_false] at hc
    rcases hc with rfl | rfl | rfl | rfl | rfl | rfl | rfl
    · exact not_ws_of_isDigit h1
    · exact not_ws_of_isDigit h2
    · exact not_ws_of_isDigit h3
    · exact not_ws_of_isDigit h4
    · decide
    · exact not_ws_of_isDigit h5
    · exact not_ws_of_isDigit h6
  show String.mk (stripChars m.data) = m
  rw [stripChars_of_not_ws hall]

theorem monthShapeOK_of_specShape {m : String} (h : specMonthShape m = true) :
    monthShapeOK m = true := by
  obtain ⟨y1, y2, y3, y4, d, m1, m2, hdata, _, _, _, _, hd, _, _⟩ := specShape_data h
  subst hd
  simp [monthShapeOK, hdata]

theorem mem_insertionSort {α : Type} (r : α → α → Prop) [DecidableRel r]
    {a : α} {l : List α} : a ∈ List.insertionSort r l ↔ a ∈ l :=
  (List.perm_insertionSort r l).mem_iff

theorem length_insertionSort {α : Type} (r : α → α → Prop) [DecidableRel r]
    (l : List α) : (List.insertionSort r l).length = l.length :=
  (List.perm_insertionSort r l).length_eq

theorem is_month_closed_pyStrip (db : DB) (m : String) :
    is_month_closed db (pyStrip m) = is_month_closed db m := by
  simp [is_month_closed, pyStrip_idem]

/-- C10: every call of `update_bill_amount_and_recurring` fails — its body
resolves the undefined name `get_db` before doing anything else, so Python
raises `NameError` and no stored state is touched; no call can succeed. -/
theorem C10_update_bill_always_errors (db : DB) (bill_id : String)
    (planned_amount : ℚ) (recurring : Bool) :
    update_bill_amount_and_recurring db bill_id planned_amount recurring =
      Except.error "NameError: name get_db is not defined" := rfl

/-- C4 counterexample: the claim demands a validation error for every month
string that is not exactly of YYYY-MM shape, but the source only checks
length 7 and a dash at index 4, so the non-YYYY-MM string "abcd-ef" is
accepted: `planned_vs_actual` succeeds on it instead of failing. -/
theorem C4_cex :
    specMonthShape "abcd-ef" = false ∧
      planned_vs_actual emptyDB "abcd-ef" = Except.ok [] := by
  constructor
  · decide
  · rfl

/-- C4 (amended): the month argument is first stripped of surrounding
whitespace; if the stripped string fails the source's shape check (length 7
with a dash at index 4), then `planned_vs_actual`, `upsert_budget`,
`upsert_snapshot` and `close_month` all fail synchronously with the
validation error "Month must be YYYY-MM." and have no effect. -/
theorem C4_shape_validation (db : DB)
    (m owner_id category_id account_id : String)
    (planned balance payment : ℚ) (note : Option String)
    (h : monthShapeOK (pyStrip m) = false) :
    planned_vs_actual db m = Except.error "Month must be YYYY-MM." ∧
    upsert_budget db m owner_id category_id planned =
      Except.error "Month must be YYYY-MM." ∧
    upsert_snapshot db account_id m balance payment =
      Except.error "Month must be YYYY-MM." ∧
    close_month db m note = Except.error "Month must be YYYY-MM." := by
  refine ⟨?_, ?_, ?_, ?_⟩ <;>
    simp [planned_vs_actual, upsert_budget, upsert_snapshot, close_month, h]

/-- C4 witness: the malformed month "2026/01" is rejected by all four
operations. -/
theorem C4_shape_validation_witness :
    monthShapeOK (pyStrip "2026/01") = false ∧
      planned_vs_actual emptyDB "2026/01" = Except.error "Month must be YYYY-MM." ∧
      close_month emptyDB "2026/01" none = Except.error "Month must be YYYY-MM." := by
  have h : monthShapeOK (pyStrip "2026/01") = false := by decide
  have hall := C4_shape_validation emptyDB "2026/01" "o1" "c1" "a1" 0 0 0 none h
  exact ⟨h, hall.1, hall.2.2.2⟩

theorem bulk_preserves_pos (rows : List BulkRow) :
    ∀ db : DB, (∀ r ∈ rows, 0 < r.amount) → (∀ t ∈ db.transactions, 0 < t.amount) →
      ∀ t ∈ (bulk_add_transactions db rows).transactions, 0 < t.amount := by
  induction rows with
  | nil => exact fun db _ hpos => hpos
  | cons r rs ih =>
      intro db hrows hpos
      refine ih (bulkStep db r) (fun x hx => hrows x (List.mem_cons_of_mem r hx)) ?_
      intro u hu
      rcases List.mem_append.mp hu with h1 | h1
      · exact hpos u h1
      · have hu' : u.amount = r.amount := by
          simp only [List.mem_singleton] at h1
          rw [h1]
        rw [hu']
        exact hrows r (List.mem_cons_self r rs)

/-- C8 counterexample: the claim says an attempt to store a transaction with
amount ≤ 0 through `bulk_add_transactions` raises a validation error and has
no effect, but the function performs no amount check at all: it returns
normally (it is not even fallible) and the negative-amount row is stored. -/
theorem C8_cex :
    (bulk_add_transactions emptyDB [cexBulkRow]).transactions.map (·.amount) =
        [(-5 : ℚ)] ∧
      (bulk_add_transactions emptyDB [cexBulkRow]).transactions.length = 1 ∧
      ((-5 : ℚ) < 0) := by
  refine ⟨rfl, rfl, by norm_num⟩

/-- C8 (amended): `add_transaction` rejects a non-positive amount with
`ValueError("Amount must be > 0.")` and leaves the store unchanged, and a
successful `add_transaction` preserves positivity of all stored amounts;
`bulk_add_transactions` itself performs no amount validation — positivity
of the rows it stores is enforced by its only caller, the CSV import
screen, which rejects any row with amount ≤ 0 before calling it — so bulk insertion
preserves positivity exactly when every supplied row has a positive amount. -/
theorem C8_amount_validation (db : DB) (txn_date owner_id category_id desc : String)
    (amount : ℚ) (rows : List BulkRow) :
    (amount ≤ 0 →
      add_transaction db txn_date owner_id category_id amount desc =
        Except.error "Amount must be > 0.") ∧
    (∀ db', add_transaction db txn_date owner_id category_id amount desc =
        Except.ok db' →
      (∀ t ∈ db.transactions, 0 < t.amount) → ∀ t ∈ db'.transactions, 0 < t.amount) ∧
    ((∀ r ∈ rows, 0 < r.amount) → (∀ t ∈ db.transactions, 0 < t.amount) →
      ∀ t ∈ (bulk_add_transactions db rows).transactions, 0 < t.amount) := by
  refine ⟨fun h => by simp [add_transaction, h], ?_, ?_⟩
  · intro db' hok hpos t ht
    unfold add_transaction at hok
    split at hok
    · exact absurd hok (by simp)
    · rename_i hgt
      cases hok
      rcases List.mem_append.mp ht with h1 | h1
      · exact hpos t h1
      · have : t.amount = amount := by
          simp only [List.mem_singleton] at h1
          rw [h1]
        rw [this]
        exact lt_of_not_le hgt
  · exact bulk_preserves_pos rows db

/-- C8 witness: a concrete rejected negative single insert, and a concrete
all-positive bulk insert whose stored amounts stay positive. -/
theorem C8_amount_validation_witness :
    (add_transaction emptyDB "2026-01-05" "o1" "c1" (-3) "x" =
        Except.error "Amount must be > 0.") ∧
      (∀ t ∈ (bulk_add_transactions emptyDB [posBulkRow]).transactions,
        0 < t.amount) := by
  constructor
  · exact (C8_amount_validation emptyDB "2026-01-05" "o1" "c1" "x" (-3) []).1
      (by norm_num)
  · exact (C8_amount_validation emptyDB "2026-01-06" "o1" "c1" "" 1
      [posBulkRow]).2.2
      (by
        intro r hr
        simp only [List.mem_singleton] at hr
        rw [hr]
        norm_num [posBulkRow])
      (by simp [emptyDB])

theorem countP_zero_iff_any_false {α : Type} (p : α → Bool) (l : List α) :
    l.countP p = 0 ↔ l.any p = false := by
  rw [List.countP_eq_zero, List.any_eq_false]

theorem ensureStep_keeps (ms : String) (d : DB) (b : Bill) :
    (ensureStep ms d b).owners = d.owners ∧
    (ensureStep ms d b).categories = d.categories ∧
    (ensureStep ms d b).bills = d.bills ∧
    (ensureStep ms d b).accounts = d.accounts ∧
    (ensureStep ms d b).account_snapshots = d.account_snapshots ∧
    (ensureStep ms d b).transactions = d.transactions ∧
    (ensureStep ms d b).budgets = d.budgets ∧
    (ensureStep ms d b).month_closings = d.month_closings := by
  unfold ensureStep
  split <;> exact ⟨rfl, rfl, rfl, rfl, rfl, rfl, rfl, rfl⟩

theorem ensureFold_keeps (ms : String) : ∀ (bs : List Bill) (d : DB),
    (bs.foldl (ensureStep ms) d).owners = d.owners ∧
    (bs.foldl (ensureStep ms) d).categories = d.categories ∧
    (bs.foldl (ensureStep ms) d).bills = d.bills ∧
    (bs.foldl (ensureStep ms) d).accounts = d.accounts ∧
    (bs.foldl (ensureStep ms) d).account_snapshots = d.account_snapshots ∧
    (bs.foldl (ensureStep ms) d).transactions = d.transactions ∧
    (bs.foldl (ensureStep ms) d).budgets = d.budgets ∧
    (bs.foldl (ensureStep ms) d).month_closings = d.month_closings
  | [], d => ⟨rfl, rfl, rfl, rfl, rfl, rfl, rfl, rfl⟩
  | b :: bs, d => by
      rw [List.foldl_cons]
      have ih := ensureFold_keeps ms bs (ensureStep ms d b)
      have hs := ensureStep_keeps ms d b
      exact ⟨ih.1.trans hs.1, ih.2.1.trans hs.2.1, ih.2.2.1.trans hs.2.2.1,
        ih.2.2.2.1.trans hs.2.2.2.1, ih.2.2.2.2.1.trans hs.2.2.2.2.1,
        ih.2.2.2.2.2.1.trans hs.2.2.2.2.2.1,
        ih.2.2.2.2.2.2.1.trans hs.2.2.2.2.2.2.1,
        ih.2.2.2.2.2.2.2.trans hs.2.2.2.2.2.2.2⟩

theorem ensureStep_eq_self {ms : String} {d : DB} {b : Bill}
    (hany : d.bill_payments.any
      (fun bp => bp.bill_id == b.id && bp.month == ms) = true) :
    ensureStep ms d b = d := by
  unfold ensureStep
  rw [if_pos hany]

theorem ensureStep_payments_eq {ms : String} {d : DB} {b : Bill}
    (hany : d.bill_payments.any
      (fun bp => bp.bill_id == b.id && bp.month == ms) = false) :
    (ensureStep ms d b).bill_payments =
      d.bill_payments ++ [newPayment d.gen b.id ms] := by
  unfold ensureStep
  rw [if_neg (by simp [hany])]

theorem ensureFold_payments (ms : String) : ∀ (bs : List Bill) (d : DB),
    ∃ extra, (bs.foldl (ensureStep ms) d).bill_payments = d.bill_payments ++ extra ∧
      ∀ bp ∈ extra, bp.month = ms ∧ bp.paid = false ∧ bp.paid_amount = none ∧
        bp.paid_date = none ∧ bp.note = none
  | [], d => ⟨[], by simp⟩
  | b :: bs, d => by
      rw [List.foldl_cons]
      obtain ⟨extra, hx, hprop⟩ := ensureFold_payments ms bs (ensureStep ms d b)
      cases hany : d.bill_payments.any
          (fun bp => bp.bill_id == b.id && bp.month == ms) with
      | true =>
          rw [ensureStep_eq_self hany] at hx ⊢
          exact ⟨extra, hx, hprop⟩
      | false =>
          rw [ensureStep_payments_eq hany] at hx
          refine ⟨newPayment d.gen b.id ms :: extra, ?_, ?_⟩
          · rw [hx]
            simp
          · intro bp hbp
            rcases List.mem_cons.mp hbp with rfl | hbp2
            · exact ⟨rfl, rfl, rfl, rfl, rfl⟩
            · exact hprop bp hbp2

theorem ensureFold_count (ms x : String) : ∀ (bs : List Bill) (d : DB),
    (bs.foldl (ensureStep ms) d).bill_payments.countP
        (fun bp => bp.bill_id == x && bp.month == ms) =
      if d.bill_payments.countP (fun bp => bp.bill_id == x && bp.month == ms) = 0 ∧
          x ∈ bs.map Bill.id then 1
      else d.bill_payments.countP (fun bp => bp.bill_id == x && bp.month == ms)
  | [], d => by simp
  | b :: bs, d => by
      rw [List.foldl_cons]
      have ih := ensureFold_count ms x bs (ensureStep ms d b)
      by_cases hxb : x = b.id
      · subst hxb
        cases hany : d.bill_payments.any
            (fun bp => bp.bill_id == b.id && bp.month == ms) with
        | true =>
            rw [ensureStep_eq_self hany] at ih
            rw [ensureStep_eq_self hany, ih]
            have hpos : d.bill_payments.countP
                (fun bp => bp.bill_id == b.id && bp.month == ms) ≠ 0 := by
              intro h0
              rw [countP_zero_iff_any_false] at h0
              rw [h0] at hany
              exact Bool.noConfusion hany
            simp [hpos]
        | false =>
            have hzero : d.bill_payments.countP
                (fun bp => bp.bill_id == b.id && bp.month == ms) = 0 :=
              (countP_zero_iff_any_false _ _).mpr hany
            have hone : (ensureStep ms d b).bill_payments.countP
                (fun bp => bp.bill_id == b.id && bp.month == ms) = 1 := by
              rw [ensureStep_payments_eq hany, List.countP_append, hzero]
              simp [List.countP_cons, newPayment]
            rw [ih, hone]
            simp [hzero]
      · have hcount : (ensureStep ms d b).bill_payments.countP
            (fun bp => bp.bill_id == x && bp.month == ms) =
              d.bill_payments.countP (fun bp => bp.bill_id == x && bp.month == ms) := by
          cases hany : d.bill_payments.any
              (fun bp => bp.bill_id == b.id && bp.month == ms) with
          | true => rw [ensureStep_eq_self hany]
          | false =>
              rw [ensureStep_payments_eq hany, List.countP_append]
              simp [List.countP_cons, newPayment, Ne.symm hxb]
        rw [ih, hcount]
        have hmem : (x ∈ (b :: bs).map Bill.id) ↔ (x ∈ bs.map Bill.id) := by
          simp [hxb]
        by_cases hc : d.bill_payments.countP
            (fun bp => bp.bill_id == x && bp.month == ms) = 0 ∧ x ∈ bs.map Bill.id
        · rw [if_pos hc, if_pos ⟨hc.1, hmem.mpr hc.2⟩]
        · rw [if_neg hc, if_neg (fun hcc => hc ⟨hcc.1, hmem.mp hcc.2⟩)]


theorem ensureFold_id (ms : String) : ∀ (bs : List Bill) (d : DB),
    (∀ b ∈ bs, d.bill_payments.any
        (fun bp => bp.bill_id == b.id && bp.month == ms) = true) →
    bs.foldl (ensureStep ms) d = d
  | [], _, _ => rfl
  | b :: bs, d, h => by
      rw [List.foldl_cons]
      have hstep : ensureStep ms d b = d := by
        unfold ensureStep
        rw [if_pos (h b (List.mem_cons_self b bs))]
      rw [hstep]
      exact ensureFold_id ms bs d (fun b' hb' => h b' (List.mem_cons_of_mem b hb'))

theorem ensure_bills (db : DB) (m : String) :
    (ensure_bill_payment_rows db m).bills = db.bills :=
  (ensureFold_keeps (pyStrip m) (db.bills.filter (·.active)) db).2.2.1

theorem ensure_closings (db : DB) (m : String) :
    (ensure_bill_payment_rows db m).month_closings = db.month_closings :=
  (ensureFold_keeps (pyStrip m) (db.bills.filter (·.active)) db).2.2.2.2.2.2.2

theorem ensure_count (db : DB) (m x : String) :
    (ensure_bill_payment_rows db m).bill_payments.countP
        (fun bp => bp.bill_id == x && bp.month == pyStrip m) =
      if db.bill_payments.countP
            (fun bp => bp.bill_id == x && bp.month == pyStrip m) = 0 ∧
          x ∈ (db.bills.filter (·.active)).map Bill.id then 1
      else db.bill_payments.countP
            (fun bp => bp.bill_id == x && bp.month == pyStrip m) :=
  ensureFold_count (pyStrip m) x (db.bills.filter (·.active)) db

theorem ensure_count_pos (db : DB) (m : String) {b : Bill}
    (hb : b ∈ db.bills) (hact : b.active = true) :
    0 < (ensure_bill_payment_rows db m).bill_payments.countP
        (fun bp => bp.bill_id == b.id && bp.month == pyStrip m) := by
  have hbid : b.id ∈ (db.bills.filter (·.active)).map Bill.id :=
    List.mem_map.mpr ⟨b, List.mem_filter.mpr ⟨hb, by simp [hact]⟩, rfl⟩
  rw [ensure_count db m b.id]
  by_cases h0 : db.bill_payments.countP
      (fun bp => bp.bill_id == b.id && bp.month == pyStrip m) = 0
  · rw [if_pos ⟨h0, hbid⟩]
    norm_num
  · rw [if_neg (fun hc => h0 hc.1)]
    omega

/-- C2: for a month of valid YYYY-MM shape, `close_month` succeeds;
`is_closed` is true immediately after; closing an already-closed month is a
silent no-op returning the database unchanged; and when the month was open,
the closing first materializes a BillPayment row for every active bill. -/
theorem C2_close_month (db : DB) (m : String) (note : Option String)
    (h : specMonthShape m = true) :
    close_month db m note = Except.ok (close_monthB db m note) ∧
    is_month_closed (close_monthB db m note) m = true ∧
    (is_month_closed db m = true → close_monthB db m note = db) ∧
    (is_month_closed db m = false →
      ∀ b ∈ db.bills, b.active = true →
        ∃ bp ∈ (close_monthB db m note).bill_payments,
          bp.bill_id = b.id ∧ bp.month = m) := by
  have hps : pyStrip m = m := pyStrip_of_specShape h
  have hok : monthShapeOK m = true := monthShapeOK_of_specShape h
  refine ⟨?_, ?_, ?_, ?_⟩
  · show (if monthShapeOK (pyStrip m) then
        Except.ok (close_monthB db (pyStrip m) note)
      else Except.error "Month must be YYYY-MM.") = _
    rw [hps, if_pos hok]
  · cases hcl : is_month_closed db m with
    | true =>
        unfold close_monthB
        rw [if_pos hcl]
        exact hcl
    | false =>
        unfold close_monthB
        rw [if_neg (by simp [hcl])]
        simp [is_month_closed, hps]
  · intro hcl
    unfold close_monthB
    rw [if_pos hcl]
  · intro hcl b hb hact
    have hpos := ensure_count_pos db m hb hact
    rw [hps] at hpos
    obtain ⟨bp, hbp, hpred⟩ := List.countP_pos_iff.mp hpos
    simp only [Bool.and_eq_true, beq_iff_eq] at hpred
    refine ⟨bp, ?_, hpred.1, hpred.2⟩
    show bp ∈ (close_monthB db m note).bill_payments
    unfold close_monthB
    rw [if_neg (by simp [hcl])]
    show bp ∈ (ensure_bill_payment_rows db m).bill_payments
    exact hbp

/-- C2 witness: closing "2026-01" on a one-bill open database makes the month
closed and creates the bill payment row. -/
theorem C2_close_month_witness :
    is_month_closed (close_monthB W2 "2026-01" none) "2026-01" = true ∧
    ∃ bp ∈ (close_monthB W2 "2026-01" none).bill_payments,
      bp.bill_id = bill1.id ∧ bp.month = "2026-01" := by
  have h := C2_close_month W2 "2026-01" none (by decide)
  exact ⟨h.2.1, h.2.2.2 (by decide) bill1 (by simp [W2]) rfl⟩

/-- C6: `bills_due` first materializes a BillPayment row per active bill; the
materialization only appends fresh unpaid rows (it never alters the paid
flag, paid amount, paid date or note of an existing row), and it is
idempotent: a second call changes nothing, and starting from a month with no
payment rows, the two calls leave exactly one payment row per active bill. -/
theorem C6_bills_due_idempotent (db : DB) (m : String) :
    (bills_due_view (bills_due_view db m).1 m).1 = (bills_due_view db m).1 ∧
    (∃ extra, (bills_due_view db m).1.bill_payments = db.bill_payments ++ extra ∧
      ∀ bp ∈ extra, bp.paid = false ∧ bp.paid_amount = none ∧
        bp.paid_date = none ∧ bp.note = none) ∧
    (db.bill_payments.countP (fun bp => bp.month == pyStrip m) = 0 →
      ∀ b ∈ db.bills, b.active = true →
        (bills_due_view (bills_due_view db m).1 m).1.bill_payments.countP
          (fun bp => bp.bill_id == b.id && bp.month == pyStrip m) = 1) := by
  have h1 : (bills_due_view db m).1 = ensure_bill_payment_rows db m := rfl
  have hid : ensure_bill_payment_rows (ensure_bill_payment_rows db m) m =
      ensure_bill_payment_rows db m := by
    show ((ensure_bill_payment_rows db m).bills.filter (·.active)).foldl
        (ensureStep (pyStrip m)) (ensure_bill_payment_rows db m) = _
    rw [ensure_bills db m]
    apply ensureFold_id
    intro b hb
    have hbmem : b ∈ db.bills := (List.mem_filter.mp hb).1
    have hbact : b.active = true := by
      have := (List.mem_filter.mp hb).2
      simpa using this
    have hpos := ensure_count_pos db m hbmem hbact
    obtain ⟨bp, hbp, hpred⟩ := List.countP_pos_iff.mp hpos
    exact List.any_eq_true.mpr ⟨bp, hbp, hpred⟩
  have h2 : (bills_due_view (bills_due_view db m).1 m).1 =
      ensure_bill_payment_rows db m := by
    rw [h1]
    show ensure_bill_payment_rows (ensure_bill_payment_rows db m) m = _
    exact hid
  refine ⟨?_, ?_, ?_⟩
  · rw [h2, h1]
  · rw [h1]
    obtain ⟨extra, hx, hprop⟩ :=
      ensureFold_payments (pyStrip m) (db.bills.filter (·.active)) db
    exact ⟨extra, hx, fun bp hbp => ⟨(hprop bp hbp).2.1, (hprop bp hbp).2.2.1,
      (hprop bp hbp).2.2.2.1, (hprop bp hbp).2.2.2.2⟩⟩
  · intro hz b hb hact
    rw [h2, ensure_count db m b.id]
    have hbz : db.bill_payments.countP
        (fun bp => bp.bill_id == b.id && bp.month == pyStrip m) = 0 := by
      have hle := List.countP_mono_left
        (l := db.bill_payments)
        (p := fun bp => bp.bill_id == b.id && bp.month == pyStrip m)
        (q := fun bp => bp.month == pyStrip m)
        (fun bp _ hp => (Bool.and_eq_true _ _ |>.mp hp).2)
      omega
    have hbid : b.id ∈ (db.bills.filter (·.active)).map Bill.id :=
      List.mem_map.mpr ⟨b, List.mem_filter.mpr ⟨hb, by simp [hact]⟩, rfl⟩
    rw [if_pos ⟨hbz, hbid⟩]

/-- C6 witness: on a one-bill database with no payment rows, two bills-due
calls leave exactly one payment row for that bill. -/
theorem C6_bills_due_idempotent_witness :
    (bills_due_view (bills_due_view W2 "2026-01").1 "2026-01").1.bill_payments.countP
      (fun bp => bp.bill_id == bill1.id && bp.month == pyStrip "2026-01") = 1 :=
  (C6_bills_due_idempotent W2 "2026-01").2.2 (by decide) bill1 (by simp [W2]) rfl

theorem upsert_budgetB_count (db : DB) (ms oid cid : String) (v : ℚ) :
    (upsert_budgetB db ms oid cid v).budgets.countP (budgetKey ms oid cid) =
      if db.budgets.countP (budgetKey ms oid cid) = 0 then 1
      else db.budgets.countP (budgetKey ms oid cid) := by
  unfold upsert_budgetB
  by_cases hany : db.budgets.any (budgetKey ms oid cid) = true
  · rw [if_pos hany]
    have hmap : (db.budgets.map (fun b =>
        if budgetKey ms oid cid b then { b with planned_amount := v } else b)).countP
          (budgetKey ms oid cid) = db.budgets.countP (budgetKey ms oid cid) := by
      rw [List.countP_map]
      congr 1
      funext b
      by_cases hk : budgetKey ms oid cid b = true
      · simp only [Function.comp]
        rw [if_pos hk]
        show budgetKey ms oid cid { b with planned_amount := v } = budgetKey ms oid cid b
        rfl
      · simp only [Function.comp]
        rw [if_neg hk]
    show (db.budgets.map _).countP _ = _
    rw [hmap]
    have hpos : db.budgets.countP (budgetKey ms oid cid) ≠ 0 := by
      intro h0
      rw [countP_zero_iff_any_false] at h0
      rw [h0] at hany
      exact Bool.noConfusion hany
    rw [if_neg hpos]
  · rw [if_neg hany]
    have hzero : db.budgets.countP (budgetKey ms oid cid) = 0 := by
      rw [countP_zero_iff_any_false]
      revert hany
      cases db.budgets.any (budgetKey ms oid cid) <;> simp
    show (db.budgets ++ _).countP _ = _
    rw [List.countP_append, hzero, if_pos rfl]
    simp [List.countP_cons, budgetKey]

theorem upsert_budgetB_value (db : DB) (ms oid cid : String) (v : ℚ) :
    ∀ b ∈ (upsert_budgetB db ms oid cid v).budgets,
      budgetKey ms oid cid b = true → b.planned_amount = v := by
  unfold upsert_budgetB
  by_cases hany : db.budgets.any (budgetKey ms oid cid) = true
  · rw [if_pos hany]
    intro b hb hk
    obtain ⟨b0, _, rfl⟩ := List.mem_map.mp hb
    by_cases hk0 : budgetKey ms oid cid b0 = true
    · rw [if_pos hk0]
    · rw [if_neg hk0] at hk ⊢
      exact absurd hk hk0
  · rw [if_neg hany]
    intro b hb hk
    rcases List.mem_append.mp hb with h1 | h1
    · exfalso
      have : db.budgets.any (budgetKey ms oid cid) = true :=
        List.any_eq_true.mpr ⟨b, h1, hk⟩
      exact hany this
    · simp only [List.mem_singleton] at h1
      rw [h1]

theorem upsert_snapshotB_count (db : DB) (aid ms : String) (bal pay : ℚ) :
    (upsert_snapshotB db aid ms bal pay).account_snapshots.countP (snapKey aid ms) =
      if db.account_snapshots.countP (snapKey aid ms) = 0 then 1
      else db.account_snapshots.countP (snapKey aid ms) := by
  unfold upsert_snapshotB
  by_cases hany : db.account_snapshots.any (snapKey aid ms) = true
  · rw [if_pos hany]
    have hmap : (db.account_snapshots.map (fun s =>
        if snapKey aid ms s then { s with balance := bal, payment := pay } else s)).countP
          (snapKey aid ms) = db.account_snapshots.countP (snapKey aid ms) := by
      rw [List.countP_map]
      congr 1
      funext s
      by_cases hk : snapKey aid ms s = true
      · simp only [Function.comp]
        rw [if_pos hk]
        show snapKey aid ms { s with balance := bal, payment := pay } = snapKey aid ms s
        rfl
      · simp only [Function.comp]
        rw [if_neg hk]
    show (db.account_snapshots.map _).countP _ = _
    rw [hmap]
    have hpos : db.account_snapshots.countP (snapKey aid ms) ≠ 0 := by
      intro h0
      rw [countP_zero_iff_any_false] at h0
      rw [h0] at hany
      exact Bool.noConfusion hany
    rw [if_neg hpos]
  · rw [if_neg hany]
    have hzero : db.account_snapshots.countP (snapKey aid ms) = 0 := by
      rw [countP_zero_iff_any_false]
      revert hany
      cases db.account_snapshots.any (snapKey aid ms) <;> simp
    show (db.account_snapshots ++ _).countP _ = _
    rw [List.countP_append, hzero, if_pos rfl]
    simp [List.countP_cons, snapKey]

theorem upsert_snapshotB_value (db : DB) (aid ms : String) (bal pay : ℚ) :
    ∀ s ∈ (upsert_snapshotB db aid ms bal pay).account_snapshots,
      snapKey aid ms s = true → s.balance = bal ∧ s.payment = pay := by
  unfold upsert_snapshotB
  by_cases hany : db.account_snapshots.any (snapKey aid ms) = true
  · rw [if_pos hany]
    intro s hs hk
    obtain ⟨s0, _, rfl⟩ := List.mem_map.mp hs
    by_cases hk0 : snapKey aid ms s0 = true
    · rw [if_pos hk0]
      exact ⟨rfl, rfl⟩
    · rw [if_neg hk0] at hk
      exact absurd hk hk0
  · rw [if_neg hany]
    intro s hs hk
    rcases List.mem_append.mp hs with h1 | h1
    · exfalso
      exact hany (List.any_eq_true.mpr ⟨s, h1, hk⟩)
    · simp only [List.mem_singleton] at h1
      rw [h1]
      exact ⟨rfl, rfl⟩

/-- C7: `upsert_budget` and `upsert_snapshot` are true upserts.  Starting from
at most one row for the key — (month, owner, category) for budgets,
(account, month) for snapshots — two calls with different values leave
exactly one row for that key, and that row holds the latest values. -/
theorem C7_upserts (db : DB) (m owner_id category_id account_id : String)
    (v1 v2 bal1 pay1 bal2 pay2 : ℚ)
    (h : monthShapeOK (pyStrip m) = true)
    (hb : db.budgets.countP (budgetKey (pyStrip m) owner_id category_id) ≤ 1)
    (hs : db.account_snapshots.countP (snapKey account_id (pyStrip m)) ≤ 1) :
    (upsert_budget db m owner_id category_id v1 =
      Except.ok (upsert_budgetB db (pyStrip m) owner_id category_id v1)) ∧
    (upsert_budgetB (upsert_budgetB db (pyStrip m) owner_id category_id v1)
        (pyStrip m) owner_id category_id v2).budgets.countP
        (budgetKey (pyStrip m) owner_id category_id) = 1 ∧
    (∀ b ∈ (upsert_budgetB (upsert_budgetB db (pyStrip m) owner_id category_id v1)
        (pyStrip m) owner_id category_id v2).budgets,
      budgetKey (pyStrip m) owner_id category_id b = true → b.planned_amount = v2) ∧
    (upsert_snapshot db account_id m bal1 pay1 =
      Except.ok (upsert_snapshotB db account_id (pyStrip m) bal1 pay1)) ∧
    (upsert_snapshotB (upsert_snapshotB db account_id (pyStrip m) bal1 pay1)
        account_id (pyStrip m) bal2 pay2).account_snapshots.countP
        (snapKey account_id (pyStrip m)) = 1 ∧
    (∀ s ∈ (upsert_snapshotB (upsert_snapshotB db account_id (pyStrip m) bal1 pay1)
        account_id (pyStrip m) bal2 pay2).account_snapshots,
      snapKey account_id (pyStrip m) s = true → s.balance = bal2 ∧ s.payment = pay2) := by
  have hb1 : (upsert_budgetB db (pyStrip m) owner_id category_id v1).budgets.countP
      (budgetKey (pyStrip m) owner_id category_id) = 1 := by
    rw [upsert_budgetB_count]
    by_cases h0 : db.budgets.countP (budgetKey (pyStrip m) owner_id category_id) = 0
    · rw [if_pos h0]
    · rw [if_neg h0]
      omega
  have hs1 : (upsert_snapshotB db account_id (pyStrip m) bal1 pay1).account_snapshots.countP
      (snapKey account_id (pyStrip m)) = 1 := by
    rw [upsert_snapshotB_count]
    by_cases h0 : db.account_snapshots.countP (snapKey account_id (pyStrip m)) = 0
    · rw [if_pos h0]
    · rw [if_neg h0]
      omega
  refine ⟨?_, ?_, upsert_budgetB_value _ _ _ _ _, ?_, ?_,
    upsert_snapshotB_value _ _ _ _ _⟩
  · show (if monthShapeOK (pyStrip m) then
        Except.ok (upsert_budgetB db (pyStrip m) owner_id category_id v1)
      else Except.error "Month must be YYYY-MM.") = _
    rw [if_pos h]
  · rw [upsert_budgetB_count, hb1]
    norm_num
  · show (if monthShapeOK (pyStrip m) then
        Except.ok (upsert_snapshotB db account_id (pyStrip m) bal1 pay1)
      else Except.error "Month must be YYYY-MM.") = _
    rw [if_pos h]
  · rw [upsert_snapshotB_count, hs1]
    norm_num

/-- C7 witness: two budget upserts and two snapshot upserts on the empty
database each leave exactly one row for their key. -/
theorem C7_upserts_witness :
    (upsert_budgetB (upsert_budgetB emptyDB (pyStrip "2026-01") "o1" "c1" 10)
        (pyStrip "2026-01") "o1" "c1" 20).budgets.countP
        (budgetKey (pyStrip "2026-01") "o1" "c1") = 1 ∧
    (upsert_snapshotB (upsert_snapshotB emptyDB "a1" (pyStrip "2026-01") 100 5)
        "a1" (pyStrip "2026-01") 200 6).account_snapshots.countP
        (snapKey "a1" (pyStrip "2026-01")) = 1 := by
  have h := C7_upserts emptyDB "2026-01" "o1" "c1" "a1" 10 20 100 5 200 6
    (by decide) (by decide) (by decide)
  exact ⟨h.2.1, h.2.2.2.2.1⟩

theorem filter_live_mark (l : List Txn) (tid ts : String) :
    (l.map (fun t => if t.id == tid then { t with deleted_at := some ts } else t)).filter
        (fun t => t.deleted_at.isNone) =
      l.filter (fun t => t.deleted_at.isNone && !(t.id == tid)) := by
  simp only [beq_iff_eq]
  induction l with
  | nil => rfl
  | cons t rest ih =>
      by_cases hid : t.id = tid
      · simp [hid, ih]
      · have hbe : (t.id == tid) = false := by simp [hid]
        rw [List.map_cons, if_neg hid, List.filter_cons, List.filter_cons]
        cases hl : t.deleted_at.isNone with
        | true => simp [hid, hl, hbe, ih]
        | false => simp [hid, hl, hbe, ih]

theorem liveTxns_soft_delete (db : DB) (tid : String) :
    liveTxns (soft_delete_transaction db tid) = liveTxns (dbWithout db tid) := by
  show (db.transactions.map _).filter _ = (db.transactions.filter _).filter _
  rw [filter_live_mark db.transactions tid (freshStr db.gen), List.filter_filter]

theorem get_transactions_congr {d1 d2 : DB} (h1 : liveTxns d1 = liveTxns d2)
    (h2 : d1.owners = d2.owners) (h3 : d1.categories = d2.categories)
    (m : Option String) : get_transactions d1 m = get_transactions d2 m := by
  simp only [get_transactions, h1, h2, h3]

theorem export_transactions_congr {d1 d2 : DB} (h1 : liveTxns d1 = liveTxns d2)
    (h2 : d1.owners = d2.owners) (h3 : d1.categories = d2.categories)
    (m : Option String) :
    export_transactions_rows d1 m = export_transactions_rows d2 m := by
  simp only [export_transactions_rows, h1, h2, h3]

theorem planned_vs_actual_congr {d1 d2 : DB} (h1 : liveTxns d1 = liveTxns d2)
    (h2 : d1.owners = d2.owners) (h3 : d1.categories = d2.categories)
    (h4 : d1.budgets = d2.budgets) (ms : String) :
    planned_vs_actual d1 ms = planned_vs_actual d2 ms := by
  simp only [planned_vs_actual, pvaRows, pvaRow, plannedOf, actualSum, h1, h2, h3, h4]

/-- C9: soft-deleting a transaction keeps the number of stored transaction
rows unchanged while removing the row from `get_transactions`, from the
`planned_vs_actual` actuals, and from the CSV export — each view afterwards
equals the view of the database with the row hard-removed. -/
theorem C9_soft_delete (db : DB) (tid : String) (m : Option String) (ms : String) :
    (soft_delete_transaction db tid).transactions.length = db.transactions.length ∧
    (∀ r ∈ get_transactions (soft_delete_transaction db tid) m, r.id ≠ tid) ∧
    get_transactions (soft_delete_transaction db tid) m =
      get_transactions (dbWithout db tid) m ∧
    planned_vs_actual (soft_delete_transaction db tid) ms =
      planned_vs_actual (dbWithout db tid) ms ∧
    export_transactions_rows (soft_delete_transaction db tid) m =
      export_transactions_rows (dbWithout db tid) m := by
  have hlive := liveTxns_soft_delete db tid
  have hget := get_transactions_congr hlive rfl rfl m
  refine ⟨?_, ?_, hget, planned_vs_actual_congr hlive rfl rfl rfl ms,
    export_transactions_congr hlive rfl rfl m⟩
  · show (db.transactions.map _).length = _
    rw [List.length_map]
  · intro r hr
    rw [hget] at hr
    unfold get_transactions at hr
    rw [mem_insertionSort] at hr
    obtain ⟨t, ht, hr1⟩ := List.mem_flatMap.mp hr
    obtain ⟨o, ho, hr2⟩ := List.mem_flatMap.mp hr1
    obtain ⟨c, hc, rfl⟩ := List.mem_map.mp hr2
    have ht1 : t ∈ liveTxns (dbWithout db tid) := (List.mem_filter.mp ht).1
    have ht2 : t ∈ db.transactions.filter (fun u => !(u.id == tid)) :=
      (List.mem_filter.mp ht1).1
    have ht3 : (!(t.id == tid)) = true := (List.mem_filter.mp ht2).2
    intro heq
    have : t.id = tid := heq
    simp [this] at ht3

/-- C9 witness: on a two-transaction database, soft-deleting "t1" leaves the
stored row count at 2, and the view row of the surviving transaction has a
different id. -/
theorem C9_soft_delete_witness :
    (soft_delete_transaction W9 "t1").transactions.length = W9.transactions.length ∧
    ({ id := "t2", txn_date := "2026-01-04", owner := "Shared",
       category := "Groceries", description := "", amount := 7 } :
        TxnViewRow).id ≠ "t1" := by
  refine ⟨(C9_soft_delete W9 "t1" (some "2026-01") "2026-01").1, ?_⟩
  exact (C9_soft_delete W9 "t1" (some "2026-01") "2026-01").2.1
    { id := "t2", txn_date := "2026-01-04", owner := "Shared",
      category := "Groceries", description := "", amount := 7 }
    (by decide)

theorem is_month_closed_congr {d1 d2 : DB}
    (h : d1.month_closings = d2.month_closings) (m : String) :
    is_month_closed d1 m = is_month_closed d2 m := by
  simp [is_month_closed, h]

theorem add_transaction_closings {d d' : DB} {txn_date oid cid desc : String}
    {amount : ℚ} (h : add_transaction d txn_date oid cid amount desc = Except.ok d') :
    d'.month_closings = d.month_closings := by
  unfold add_transaction at h
  split at h
  · exact absurd h (by simp)
  · cases h
    rfl

/-- C1: the closed-month confirmation gate, over any gated service write that
does not itself change the set of closed months (all five mutation types —
transaction insert, budget upsert, bill-payment update, snapshot upsert and
bulk import — are of this shape).  On a closed month the first save request leaves
the database unchanged and only arms the pending flag; re-issuing the write
through Confirm performs it exactly once and clears the flag (single-use), so
a repeated save afterwards again leaves the database unchanged instead of
being silently re-authorized; Cancel discards the pending flag without any
write; on an open month the save writes immediately. -/
theorem C1_confirmation_gate (db : DB) (pending : Bool) (m : String)
    (write : DB → Except String DB)
    (hw : ∀ d d', write d = Except.ok d' → d'.month_closings = d.month_closings) :
    (is_month_closed db m = true →
      gatedSaveRun db pending .saveClicked m write = (db, true)) ∧
    (is_month_closed db m = true →
      gatedSaveRun db true .confirmClicked m write = (runWrite write db, false)) ∧
    (is_month_closed db m = true → ∀ db', write db = Except.ok db' →
      gatedSaveRun db' false .saveClicked m write = (db', true)) ∧
    (is_month_closed db m = false →
      gatedSaveRun db pending .saveClicked m write = (runWrite write db, false)) ∧
    (is_month_closed db m = true →
      gatedSaveRun db true .cancelClicked m write = (db, false)) := by
  refine ⟨?_, ?_, ?_, ?_, ?_⟩
  · intro hcl
    cases pending <;>
      simp [gatedSaveRun, confirm_bar_if_pending, arm_two_step_if_closed,
        is_month_closed_pyStrip, hcl]
  · intro hcl
    simp [gatedSaveRun, confirm_bar_if_pending, is_month_closed_pyStrip, hcl]
  · intro hcl db' hok
    have hcl' : is_month_closed db' m = true := by
      rw [is_month_closed_congr (hw db db' hok) m]
      exact hcl
    simp [gatedSaveRun, confirm_bar_if_pending, arm_two_step_if_closed,
      is_month_closed_pyStrip, hcl']
  · intro hcl
    cases pending <;>
      simp [gatedSaveRun, confirm_bar_if_pending, is_month_closed_pyStrip, hcl]
  · intro hcl
    simp [gatedSaveRun, confirm_bar_if_pending, is_month_closed_pyStrip, hcl]

/-- C1 witness: with "2026-01" closed, a save attempt leaves the database
unchanged and arms the flag, Confirm performs the expense insert, and on the
open empty database the same save writes immediately. -/
theorem C1_confirmation_gate_witness :
    gatedSaveRun Wc false .saveClicked "2026-01" wWrite = (Wc, true) ∧
    gatedSaveRun Wc true .confirmClicked "2026-01" wWrite = (runWrite wWrite Wc, false) ∧
    gatedSaveRun emptyDB false .saveClicked "2026-01" wWrite =
      (runWrite wWrite emptyDB, false) := by
  have hw : ∀ d d', wWrite d = Except.ok d' → d'.month_closings = d.month_closings :=
    fun d d' h => add_transaction_closings h
  exact ⟨(C1_confirmation_gate Wc false "2026-01" wWrite hw).1 (by decide),
    (C1_confirmation_gate Wc true "2026-01" wWrite hw).2.1 (by decide),
    (C1_confirmation_gate emptyDB false "2026-01" wWrite hw).2.2.2.1 (by decide)⟩

theorem sum_map_const {α : Type} (l : List α) (k : ℕ) :
    (l.map (fun _ => k)).sum = l.length * k := by
  induction l with
  | nil => simp
  | cons a l ih =>
      simp only [List.map_cons, List.sum_cons, ih, List.length_cons]
      rw [Nat.succ_mul, Nat.add_comm]

theorem sqlRound2_zero : sqlRound2 0 = 0 := by
  unfold sqlRound2 qfloor
  norm_num

theorem pvaLe_iff {r1 r2 : PvaRow} : pvaLe r1 r2 = true ↔
    r1.owner_sort < r2.owner_sort ∨
      (r1.owner_sort = r2.owner_sort ∧ strLe r1.category r2.category = true) := by
  simp [pvaLe, Bool.or_eq_true, Bool.and_eq_true, decide_eq_true_eq, beq_iff_eq]

theorem pvaLe_trans (a b c : PvaRow) (hab : pvaLe a b = true)
    (hbc : pvaLe b c = true) : pvaLe a c = true := by
  rw [pvaLe_iff] at hab hbc ⊢
  rcases hab with h1 | ⟨h1, h1'⟩
  · rcases hbc with h2 | ⟨h2, _⟩
    · exact Or.inl (lt_trans h1 h2)
    · exact Or.inl (h2 ▸ h1)
  · rcases hbc with h2 | ⟨h2, h2'⟩
    · exact Or.inl (h1 ▸ h2)
    · exact Or.inr ⟨h1.trans h2, strLe_trans h1' h2'⟩

theorem pvaLe_total (a b : PvaRow) : pvaLe a b = true ∨ pvaLe b a = true := by
  rcases lt_trichotomy a.owner_sort b.owner_sort with h | h | h
  · exact Or.inl (pvaLe_iff.mpr (Or.inl h))
  · rcases strLe_total a.category b.category with h' | h'
    · exact Or.inl (pvaLe_iff.mpr (Or.inr ⟨h, h'⟩))
    · exact Or.inr (pvaLe_iff.mpr (Or.inr ⟨h.symm, h'⟩))
  · exact Or.inr (pvaLe_iff.mpr (Or.inl h))

/-- C3: for a validly shaped month, `planned_vs_actual` emits one row per
(owner × active category) pair — the full cross product, so pairs with no
budget row and no transactions still appear, with planned, actual and
variance all 0 — where actual is the two-decimal rounding of the sum of live
transaction amounts for that owner, category and month, variance is the
two-decimal rounding of planned minus the raw actual sum, and the rows are
ordered by owner sort_order and then category name. -/
theorem C3_planned_vs_actual (db : DB) (m : String)
    (h : monthShapeOK (pyStrip m) = true) :
    planned_vs_actual db m = Except.ok (pvaRows db (pyStrip m)) ∧
    (pvaRows db (pyStrip m)).length =
      db.owners.length * (db.categories.filter (·.active)).length ∧
    (∀ o ∈ db.owners, ∀ c ∈ db.categories, c.active = true →
      ∃ r ∈ pvaRows db (pyStrip m),
        r.owner = o.display_name ∧ r.owner_sort = o.sort_order ∧
        r.category = c.name ∧
        r.planned = plannedOf db (pyStrip m) o.id c.id ∧
        r.actual = sqlRound2 (actualSum db (pyStrip m) o.id c.id) ∧
        r.variance = sqlRound2
          (plannedOf db (pyStrip m) o.id c.id - actualSum db (pyStrip m) o.id c.id)) ∧
    (∀ o ∈ db.owners, ∀ c ∈ db.categories, c.active = true →
      db.budgets.find? (budgetKey (pyStrip m) o.id c.id) = none →
      (liveTxns db).filter (fun t =>
          month_from_date t.txn_date == pyStrip m && t.owner_id == o.id &&
            t.category_id == c.id) = [] →
      ∃ r ∈ pvaRows db (pyStrip m),
        r.owner = o.display_name ∧ r.category = c.name ∧
        r.planned = 0 ∧ r.actual = 0 ∧ r.variance = 0) ∧
    List.Pairwise (fun r1 r2 => r1.owner_sort < r2.owner_sort ∨
        (r1.owner_sort = r2.owner_sort ∧ strLe r1.category r2.category = true))
      (pvaRows db (pyStrip m)) := by
  have hmem : ∀ o ∈ db.owners, ∀ c ∈ db.categories, c.active = true →
      pvaRow db (pyStrip m) o c ∈ pvaRows db (pyStrip m) := by
    intro o ho c hc hact
    show _ ∈ List.insertionSort _ _
    rw [mem_insertionSort]
    exact List.mem_flatMap.mpr
      ⟨o, ho, List.mem_map.mpr ⟨c, List.mem_filter.mpr ⟨hc, by simp [hact]⟩, rfl⟩⟩
  refine ⟨?_, ?_, ?_, ?_, ?_⟩
  · show (if monthShapeOK (pyStrip m) then Except.ok (pvaRows db (pyStrip m))
      else Except.error "Month must be YYYY-MM.") = _
    rw [if_pos h]
  · show (List.insertionSort _ _).length = _
    rw [length_insertionSort, List.length_flatMap]
    have hconst : (List.map (List.length ∘ fun o =>
        (db.categories.filter (·.active)).map (pvaRow db (pyStrip m) o)) db.owners) =
        db.owners.map (fun _ => (db.categories.filter (·.active)).length) := by
      simp only [Function.comp_def, List.length_map]
    rw [hconst, sum_map_const]
  · intro o ho c hc hact
    exact ⟨pvaRow db (pyStrip m) o c, hmem o ho c hc hact, rfl, rfl, rfl, rfl, rfl, rfl⟩
  · intro o ho c hc hact hbud htx
    refine ⟨pvaRow db (pyStrip m) o c, hmem o ho c hc hact, rfl, rfl, ?_, ?_, ?_⟩
    · show plannedOf db (pyStrip m) o.id c.id = 0
      simp [plannedOf, hbud]
    · show sqlRound2 (actualSum db (pyStrip m) o.id c.id) = 0
      unfold actualSum
      rw [htx]
      simpa using sqlRound2_zero
    · show sqlRound2 (plannedOf db (pyStrip m) o.id c.id -
          actualSum db (pyStrip m) o.id c.id) = 0
      unfold actualSum
      rw [htx]
      have hp : plannedOf db (pyStrip m) o.id c.id = 0 := by
        simp [plannedOf, hbud]
      rw [hp]
      simpa using sqlRound2_zero
  · haveI ht : IsTrans PvaRow (fun a b => pvaLe a b = true) := ⟨pvaLe_trans⟩
    haveI htot : IsTotal PvaRow (fun a b => pvaLe a b = true) := ⟨pvaLe_total⟩
    have hs := List.sorted_insertionSort (fun a b => pvaLe a b = true)
      (db.owners.flatMap (fun o =>
        (db.categories.filter (·.active)).map (pvaRow db (pyStrip m) o)))
    exact hs.imp (fun hab => pvaLe_iff.mp hab)

/-- C3 witness: on a one-owner, two-category database the view contains the
cell for (Shared, Groceries) with its computed values, and the untouched
(Shared, Dining) pair still appears as an all-zero row. -/
theorem C3_planned_vs_actual_witness :
    (∃ r ∈ pvaRows W3 (pyStrip "2026-01"),
      r.owner = "Shared" ∧ r.owner_sort = 0 ∧ r.category = "Groceries" ∧
      r.planned = plannedOf W3 (pyStrip "2026-01") "o1" "c1" ∧
      r.actual = sqlRound2 (actualSum W3 (pyStrip "2026-01") "o1" "c1") ∧
      r.variance = sqlRound2 (plannedOf W3 (pyStrip "2026-01") "o1" "c1" -
        actualSum W3 (pyStrip "2026-01") "o1" "c1")) ∧
    (∃ r ∈ pvaRows W3 (pyStrip "2026-01"),
      r.owner = "Shared" ∧ r.category = "Dining" ∧
      r.planned = 0 ∧ r.actual = 0 ∧ r.variance = 0) := by
  have h := C3_planned_vs_actual W3 "2026-01" (by decide)
  exact ⟨h.2.2.1 owner1 (by simp [W3]) cat1 (by simp [W3]) rfl,
    h.2.2.2.1 owner1 (by simp [W3]) cat2 (by simp [W3]) rfl (by decide) (by decide)⟩

theorem head_sorted_desc_max {l : List String} {pm : String}
    (h : (List.insertionSort (fun a b => strLe b a = true) l).head? = some pm) :
    pm ∈ l ∧ ∀ x ∈ l, strLe x pm = true := by
  haveI ht : IsTrans String (fun a b => strLe b a = true) :=
    ⟨fun a b c hab hbc => strLe_trans hbc hab⟩
  haveI htot : IsTotal String (fun a b => strLe b a = true) :=
    ⟨fun a b => strLe_total b a⟩
  have hperm := List.perm_insertionSort (fun a b => strLe b a = true) l
  have hsort := List.sorted_insertionSort (fun a b => strLe b a = true) l
  cases hsl : List.insertionSort (fun a b => strLe b a = true) l with
  | nil =>
      rw [hsl] at h
      exact absurd h (by simp)
  | cons y ys =>
      rw [hsl] at h hperm hsort
      have hy : y = pm := by simpa using h
      constructor
      · rw [← hy]
        exact hperm.mem_iff.mp (List.mem_cons_self y ys)
      · intro x hx
        rw [← hy]
        have hx2 : x ∈ y :: ys := hperm.mem_iff.mpr hx
        rcases List.mem_cons.mp hx2 with rfl | hx3
        · exact strLe_refl x
        · exact (List.pairwise_cons.mp hsort).1 x hx3

theorem prevMonthOf_spec {db : DB} {aid ms pm : String}
    (h : prevMonthOf db aid ms = some pm) :
    (∃ s ∈ db.account_snapshots, s.account_id = aid ∧ s.month = pm ∧
      strLt pm ms = true) ∧
    ∀ s2 ∈ db.account_snapshots, s2.account_id = aid → strLt s2.month ms = true →
      strLe s2.month pm = true := by
  unfold prevMonthOf at h
  obtain ⟨hmem, hmax⟩ := head_sorted_desc_max h
  obtain ⟨s, hs, hsm⟩ := List.mem_map.mp hmem
  have hsf := List.mem_filter.mp hs
  have hpred := hsf.2
  simp only [Bool.and_eq_true, beq_iff_eq] at hpred
  constructor
  · exact ⟨s, hsf.1, hpred.1, hsm, hsm ▸ hpred.2⟩
  · intro s2 hs2 ha2 hlt2
    exact hmax s2.month
      (List.mem_map.mpr ⟨s2, List.mem_filter.mpr ⟨hs2, by simp [ha2, hlt2]⟩, rfl⟩)

theorem prevMonthOf_isSome {db : DB} {aid ms : String} {s : AccountSnapshot}
    (hs : s ∈ db.account_snapshots) (ha : s.account_id = aid)
    (hlt : strLt s.month ms = true) :
    ∃ pm, prevMonthOf db aid ms = some pm := by
  have hmem : s.month ∈ (db.account_snapshots.filter
      (fun u => u.account_id == aid && strLt u.month ms)).map (·.month) :=
    List.mem_map.mpr ⟨s, List.mem_filter.mpr ⟨hs, by simp [ha, hlt]⟩, rfl⟩
  have hmem2 : s.month ∈ List.insertionSort (fun a b => strLe b a = true)
      ((db.account_snapshots.filter
        (fun u => u.account_id == aid && strLt u.month ms)).map (·.month)) :=
    (mem_insertionSort _).mpr hmem
  unfold prevMonthOf
  cases hsl : List.insertionSort (fun a b => strLe b a = true)
      ((db.account_snapshots.filter
        (fun u => u.account_id == aid && strLt u.month ms)).map (·.month)) with
  | nil =>
      rw [hsl] at hmem2
      exact absurd hmem2 (by simp)
  | cons y ys => exact ⟨y, rfl⟩

theorem debt_row_repr {db : DB} {m : String} {r : DebtProgressRow}
    (hr : r ∈ debt_progress_rows db m) :
    ∃ a o, a ∈ db.accounts ∧ a.active = true ∧ o ∈ db.owners ∧
      o.id = a.owner_id ∧ r = deriveDebtRow (mkDebtRow db (pyStrip m) a o) := by
  unfold debt_progress_rows latest_snapshot_by_account at hr
  obtain ⟨r0, hr0, rfl⟩ := List.mem_map.mp hr
  rw [mem_insertionSort] at hr0
  obtain ⟨a, ha, hr1⟩ := List.mem_flatMap.mp hr0
  obtain ⟨o, ho, rfl⟩ := List.mem_map.mp hr1
  have haf := List.mem_filter.mp ha
  have hof := List.mem_filter.mp ho
  refine ⟨a, o, haf.1, by simpa using haf.2, hof.1, ?_, rfl⟩
  have := hof.2
  simpa using this

theorem pct_used_spec (lim cb : Option ℚ) :
    (∀ l c, lim = some l → 0 < l → cb = some c →
      pct_used lim cb = some (pyRound1 (100 * c / l))) ∧
    (cb = none → pct_used lim cb = none) ∧
    (lim = none → pct_used lim cb = none) ∧
    (∀ l, lim = some l → l ≤ 0 → pct_used lim cb = none) := by
  cases lim with
  | none => simp [pct_used]
  | some l =>
      cases cb with
      | none => simp [pct_used]
      | some c =>
          refine ⟨?_, by simp, by simp, ?_⟩
          · intro l' c' hl hpos hc
            cases hl
            cases hc
            simp [pct_used, hpos]
          · intro l' hl hle
            cases hl
            simp [pct_used, not_lt.mpr hle]

theorem payoff_pct_spec (sb cb : Option ℚ) :
    (∀ s c, sb = some s → 0 < s → cb = some c →
      payoff_pct sb cb = some (pyRound1 (100 * (s - c) / s))) ∧
    (cb = none → payoff_pct sb cb = none) ∧
    (sb = none → payoff_pct sb cb = none) ∧
    (∀ s, sb = some s → s ≤ 0 → payoff_pct sb cb = none) := by
  cases sb with
  | none => simp [payoff_pct]
  | some s =>
      cases cb with
      | none => simp [payoff_pct]
      | some c =>
          refine ⟨?_, by simp, by simp, ?_⟩
          · intro s' c' hs hpos hc
            cases hs
            cases hc
            simp [payoff_pct, hpos]
          · intro s' hs hle
            cases hs
            simp [payoff_pct, not_lt.mpr hle]

theorem delta_balance_spec (cb pb : Option ℚ) :
    (∀ c p, cb = some c → pb = some p →
      delta_balance cb pb = some (pyRound2 (c - p))) ∧
    (cb = none → delta_balance cb pb = none) ∧
    (pb = none → delta_balance cb pb = none) := by
  cases cb with
  | none => simp [delta_balance]
  | some c =>
      cases pb with
      | none => simp [delta_balance]
      | some p =>
          refine ⟨?_, by simp, by simp⟩
          intro c' p' hc hp
          cases hc
          cases hp
          rfl

/-- C5: the debt-progress derivation emits a row for every active account
(with null current-balance fields when the month has no snapshot); the
previous balance comes from the snapshot with the greatest month strictly
below the requested one; utilization% is 100·current/limit rounded to 1
decimal and null unless a positive credit limit and a current balance exist;
payoff% is 100·(start−current)/start rounded to 1 decimal and null unless a
positive start balance and a current balance exist; balance delta is
current−previous rounded to 2 decimals and null if either side is missing —
no division by zero, and missing values are never treated as zero. -/
theorem C5_debt_progress (db : DB) (m : String) :
    (∀ a ∈ db.accounts, a.active = true → ∀ o ∈ db.owners, o.id = a.owner_id →
      ∃ r ∈ debt_progress_rows db m, r.account_id = a.id) ∧
    (∀ r ∈ debt_progress_rows db m,
      (r.curr_balance = none ↔
        ∀ s ∈ db.account_snapshots,
          ¬(s.account_id = r.account_id ∧ s.month = pyStrip m)) ∧
      (∀ cb, r.curr_balance = some cb →
        ∃ s ∈ db.account_snapshots, s.account_id = r.account_id ∧
          s.month = pyStrip m ∧ s.balance = cb)) ∧
    (∀ r ∈ debt_progress_rows db m,
      (∀ pb, r.prev_balance = some pb →
        ∃ s ∈ db.account_snapshots, s.account_id = r.account_id ∧
          strLt s.month (pyStrip m) = true ∧ s.balance = pb ∧
          ∀ s2 ∈ db.account_snapshots, s2.account_id = r.account_id →
            strLt s2.month (pyStrip m) = true → strLe s2.month s.month = true) ∧
      ((∃ s ∈ db.account_snapshots, s.account_id = r.account_id ∧
          strLt s.month (pyStrip m) = true) → r.prev_balance ≠ none)) ∧
    (∀ r ∈ debt_progress_rows db m,
      (∀ lim cb, r.credit_limit = some lim → 0 < lim → r.curr_balance = some cb →
        r.utilization = some (pyRound1 (100 * cb / lim))) ∧
      (r.curr_balance = none → r.utilization = none) ∧
      (r.credit_limit = none → r.utilization = none) ∧
      (∀ lim, r.credit_limit = some lim → lim ≤ 0 → r.utilization = none)) ∧
    (∀ r ∈ debt_progress_rows db m,
      (∀ sb cb, r.start_balance = some sb → 0 < sb → r.curr_balance = some cb →
        r.payoff = some (pyRound1 (100 * (sb - cb) / sb))) ∧
      (r.curr_balance = none → r.payoff = none) ∧
      (r.start_balance = none → r.payoff = none) ∧
      (∀ sb, r.start_balance = some sb → sb ≤ 0 → r.payoff = none)) ∧
    (∀ r ∈ debt_progress_rows db m,
      (∀ cb pb, r.curr_balance = some cb → r.prev_balance = some pb →
        r.balance_delta = some (pyRound2 (cb - pb))) ∧
      (r.curr_balance = none → r.balance_delta = none) ∧
      (r.prev_balance = none → r.balance_delta = none)) := by
  have hutil : ∀ r ∈ debt_progress_rows db m,
      r.utilization = pct_used r.credit_limit r.curr_balance := by
    intro r hr
    obtain ⟨a, o, _, _, _, _, rfl⟩ := debt_row_repr hr
    rfl
  have hpay : ∀ r ∈ debt_progress_rows db m,
      r.payoff = payoff_pct r.start_balance r.curr_balance := by
    intro r hr
    obtain ⟨a, o, _, _, _, _, rfl⟩ := debt_row_repr hr
    rfl
  have hdelta : ∀ r ∈ debt_progress_rows db m,
      r.balance_delta = delta_balance r.curr_balance r.prev_balance := by
    intro r hr
    obtain ⟨a, o, _, _, _, _, rfl⟩ := debt_row_repr hr
    rfl
  refine ⟨?_, ?_, ?_, ?_, ?_, ?_⟩
  · intro a ha hact o ho hoid
    refine ⟨deriveDebtRow (mkDebtRow db (pyStrip m) a o), ?_, rfl⟩
    unfold debt_progress_rows latest_snapshot_by_account
    refine List.mem_map.mpr ⟨mkDebtRow db (pyStrip m) a o, ?_, rfl⟩
    rw [mem_insertionSort]
    exact List.mem_flatMap.mpr ⟨a, List.mem_filter.mpr ⟨ha, by simp [hact]⟩,
      List.mem_map.mpr ⟨o, List.mem_filter.mpr ⟨ho, by simp [hoid]⟩, rfl⟩⟩
  · intro r hr
    obtain ⟨a, o, _, _, _, _, rfl⟩ := debt_row_repr hr
    have hcb : (deriveDebtRow (mkDebtRow db (pyStrip m) a o)).curr_balance =
        (db.account_snapshots.find? (fun s =>
          s.account_id == a.id && s.month == pyStrip m)).map (·.balance) := rfl
    have hid : (deriveDebtRow (mkDebtRow db (pyStrip m) a o)).account_id = a.id := rfl
    rw [hcb, hid]
    constructor
    · rw [Option.map_eq_none', List.find?_eq_none]
      constructor
      · intro hall s hs hprop
        have := hall s hs
        simp [hprop.1, hprop.2] at this
      · intro hall s hs
        intro hp
        simp only [Bool.and_eq_true, beq_iff_eq] at hp
        exact hall s hs ⟨hp.1, hp.2⟩
    · intro cb hcb2
      obtain ⟨s, hfind, hbal⟩ := Option.map_eq_some'.mp hcb2
      have hp := List.find?_some hfind
      simp only [Bool.and_eq_true, beq_iff_eq] at hp
      exact ⟨s, List.mem_of_find?_eq_some hfind, hp.1, hp.2, hbal⟩
  · intro r hr
    obtain ⟨a, o, _, _, _, _, rfl⟩ := debt_row_repr hr
    have hpb : (deriveDebtRow (mkDebtRow db (pyStrip m) a o)).prev_balance =
        ((prevMonthOf db a.id (pyStrip m)).bind (fun pm =>
          db.account_snapshots.find? (fun s =>
            s.account_id == a.id && s.month == pm))).map (·.balance) := rfl
    have hid : (deriveDebtRow (mkDebtRow db (pyStrip m) a o)).account_id = a.id := rfl
    rw [hpb, hid]
    constructor
    · intro pb hpb2
      obtain ⟨s, hbind, hbal⟩ := Option.map_eq_some'.mp hpb2
      obtain ⟨pm, hpm, hfind⟩ := Option.bind_eq_some.mp hbind
      have hp := List.find?_some hfind
      simp only [Bool.and_eq_true, beq_iff_eq] at hp
      obtain ⟨⟨s0, hs0, hs0a, hs0m, hpmlt⟩, hmax⟩ := prevMonthOf_spec hpm
      refine ⟨s, List.mem_of_find?_eq_some hfind, hp.1, ?_, hbal, ?_⟩
      · rw [hp.2]
        exact hpmlt
      · intro s2 hs2 ha2 hlt2
        rw [hp.2]
        exact hmax s2 hs2 ha2 hlt2
    · rintro ⟨s, hs, hsa, hslt⟩
      obtain ⟨pm, hpm⟩ := prevMonthOf_isSome hs hsa hslt
      rw [hpm]
      obtain ⟨⟨s0, hs0, hs0a, hs0m, _⟩, _⟩ := prevMonthOf_spec hpm
      intro hnone
      rw [Option.map_eq_none'] at hnone
      simp only [Option.some_bind] at hnone
      rw [List.find?_eq_none] at hnone
      exact hnone s0 hs0 (by simp [hs0a, hs0m])
  · intro r hr
    rw [hutil r hr]
    exact pct_used_spec r.credit_limit r.curr_balance
  · intro r hr
    rw [hpay r hr]
    exact payoff_pct_spec r.start_balance r.curr_balance
  · intro r hr
    rw [hdelta r hr]
    exact delta_balance_spec r.curr_balance r.prev_balance

/-- C5 witness: on the spec's worked example (start balance 1000, credit
limit 500, January balance 400, December balance 600) the account appears in
the view and utilization, payoff and balance delta come out as 80.0, 60.0 and
−200.00. -/
theorem C5_debt_progress_witness :
    (∃ r ∈ debt_progress_rows W5 "2026-01", r.account_id = "a1") ∧
    rW5.utilization = some 80 ∧
    rW5.payoff = some 60 ∧
    rW5.balance_delta = some (-200) := by
  have hrows : debt_progress_rows W5 "2026-01" = [rW5] := rfl
  have hmem : rW5 ∈ debt_progress_rows W5 "2026-01" := by
    rw [hrows]
    exact List.mem_singleton.mpr rfl
  have h := C5_debt_progress W5 "2026-01"
  refine ⟨h.1 acct1 (by simp [W5]) rfl owner1 (by simp [W5]) rfl, ?_, ?_, ?_⟩
  · have hu := (h.2.2.2.1 rW5 hmem).1 500 400 rfl (by norm_num) rfl
    rw [hu]
    norm_num [pyRound1, roundHalfEven, qfloor]
  · have hp := (h.2.2.2.2.1 rW5 hmem).1 1000 400 rfl (by norm_num) rfl
    rw [hp]
    norm_num [pyRound1, roundHalfEven, qfloor]
  · have hd := (h.2.2.2.2.2 rW5 hmem).1 400 600 rfl rfl
    rw [hd]
    norm_num [pyRound2, roundHalfEven, qfloor]

end Budget
